import Mathlib

/-!
Verification development for `netlify/functions/discogsSearch.js`: a
three-stage search pipeline (primary / fallback / hint) that resolves a
free-text music query to a Discogs catalog URL, with best-effort catalog
enrichment.  The JavaScript source is shallowly embedded below: pure
functions become Lean functions, the two network collaborators (the SerpAPI
search provider and the Discogs read API) become oracles passed to the
handler, and JavaScript exceptions become explicit error results that the
handler's outermost catch turns into a 500 response.  JavaScript strings are
modelled as Lean strings (lists of characters), JSON values as the `Json`
type below, and the regular expressions of the source are embedded as
executable character-list scanners following the backtracking semantics of
the concrete patterns used.
-/

/-! ### Character classes (JavaScript `\s`, `\w`, line terminators) -/

/-- JavaScript's `\s` class: whitespace and line terminators. -/
def jsWs (c : Char) : Bool :=
  c.toNat == 9 || c.toNat == 10 || c.toNat == 11 || c.toNat == 12 ||
  c.toNat == 13 || c.toNat == 32 || c.toNat == 160 || c.toNat == 0x1680 ||
  (0x2000 ≤ c.toNat && c.toNat ≤ 0x200a) || c.toNat == 0x2028 ||
  c.toNat == 0x2029 || c.toNat == 0x202f || c.toNat == 0x205f ||
  c.toNat == 0x3000 || c.toNat == 0xfeff

/-- JavaScript line terminators, the characters `.` does not match. -/
def lineTerm (c : Char) : Bool :=
  c.toNat == 10 || c.toNat == 13 || c.toNat == 0x2028 || c.toNat == 0x2029

/-- JavaScript's `\w` class, used for the `\b` word boundary. -/
def wordChar (c : Char) : Bool :=
  (48 ≤ c.toNat && c.toNat ≤ 57) || (65 ≤ c.toNat && c.toNat ≤ 90) ||
  (97 ≤ c.toNat && c.toNat ≤ 122) || c.toNat == 95

/-- ASCII lower-casing, the case folding the `/i` flag performs on the
ASCII-only patterns of the source. -/
def asciiLower (c : Char) : Char :=
  if 65 ≤ c.toNat ∧ c.toNat ≤ 90 then Char.ofNat (c.toNat + 32) else c

/-- Case-insensitive match of the (lower-case) literal `pat` at the head. -/
def ciHead : List Char → List Char → Bool
  | [], _ => true
  | _ :: _, [] => false
  | p :: ps, c :: cs => (asciiLower c == p) && ciHead ps cs

/-- Case-insensitive substring containment of the lower-case literal `pat`:
the semantics of `/pat/i.test(hay)` for the plain literals of the source
(`discogs\.com` and `discogs`, with the sole escaped dot read literally). -/
def ciSub (pat : List Char) : List Char → Bool
  | [] => ciHead pat []
  | c :: cs => ciHead pat (c :: cs) || ciSub pat cs

/-- `/pat/i.test(hay)` on strings. -/
def ciTest (pat hay : String) : Bool := ciSub pat.data hay.data

/-! ### JSON values

JavaScript values flowing through the function: the parsed provider
responses, the debug-info entries, and the response bodies.  `arr`/`obj`
use mutually inductive list types so that every function over `Json` is
structurally recursive (and hence computable by the kernel). -/

mutual
inductive Json where
  | null
  | bool (b : Bool)
  | num (n : Int)
  | str (s : String)
  | arr (xs : JsonList)
  | obj (fields : JsonFields)
deriving DecidableEq, Repr
inductive JsonList where
  | nil
  | cons (hd : Json) (tl : JsonList)
deriving DecidableEq, Repr
inductive JsonFields where
  | nil
  | cons (k : String) (v : Json) (tl : JsonFields)
deriving DecidableEq, Repr
end

/-- Build a `JsonList` from a Lean list. -/
def jlist : List Json → JsonList
  | [] => .nil
  | x :: xs => .cons x (jlist xs)

/-- Build `JsonFields` from a Lean association list. -/
def jfields : List (String × Json) → JsonFields
  | [] => .nil
  | (k, v) :: xs => .cons k v (jfields xs)

/-- Object construction shorthand. -/
def jobj (xs : List (String × Json)) : Json := Json.obj (jfields xs)

/-- Array construction shorthand. -/
def jarr (xs : List Json) : Json := Json.arr (jlist xs)

/-- Property lookup on an object; `none` models JavaScript's `undefined`
(absent property, or property access on a primitive). -/
def jsGet (j : Json) (k : String) : Option Json :=
  match j with
  | .obj fs => jsGetFields fs k
  | _ => none
where jsGetFields : JsonFields → String → Option Json
  | .nil, _ => none
  | .cons k' v tl, k => if k' = k then some v else jsGetFields tl k

/-- JavaScript truthiness of a JSON value. -/
def jsTruthy : Json → Bool
  | .null => false
  | .bool b => b
  | .num n => n != 0
  | .str s => s != ""
  | .arr _ => true
  | .obj _ => true

mutual
/-- JavaScript's `String(v)` coercion on JSON values (used when a regex is
tested against a non-string field: arrays join their elements with commas,
`null`/`undefined` elements of an array become empty). -/
def jsToStr : Json → String
  | .null => "null"
  | .bool b => cond b "true" "false"
  | .num n => toString n
  | .str s => s
  | .arr xs => jsToStrList xs
  | .obj _ => "[object Object]"
def jsToStrList : JsonList → String
  | .nil => ""
  | .cons .null .nil => ""
  | .cons x .nil => jsToStr x
  | .cons .null tl => "," ++ jsToStrList tl
  | .cons x tl => jsToStr x ++ "," ++ jsToStrList tl
end

/-- JavaScript's `.length` as a JSON value: defined for strings and arrays,
`none` (undefined) otherwise. -/
def jsLength : Json → Option Json
  | .str s => some (.num s.length)
  | .arr xs => some (.num (jsLenList xs))
  | _ => none
where jsLenList : JsonList → Int
  | .nil => 0
  | .cons _ tl => 1 + jsLenList tl

/-- JavaScript's `v[0]`: first element of an array, first character of a
string; `none` (undefined) otherwise. -/
def jsIndex0 : Json → Option Json
  | .arr (.cons x _) => some x
  | .str s => match s.data with
    | [] => none
    | c :: _ => some (.str ⟨[c]⟩)
  | _ => none

/-! ### `JSON.stringify` -/

/-- The escape `JSON.stringify` applies to one character of a string. -/
def jsonEscChar (c : Char) : List Char :=
  if c = '"' then ['\\', '"']
  else if c = '\\' then ['\\', '\\']
  else if c.toNat = 8 then ['\\', 'b']
  else if c.toNat = 9 then ['\\', 't']
  else if c.toNat = 10 then ['\\', 'n']
  else if c.toNat = 12 then ['\\', 'f']
  else if c.toNat = 13 then ['\\', 'r']
  else if c.toNat < 32 then
    ['\\', 'u', '0', '0',
     (if c.toNat / 16 < 10 then Char.ofNat (48 + c.toNat / 16)
      else Char.ofNat (87 + c.toNat / 16)),
     (if c.toNat % 16 < 10 then Char.ofNat (48 + c.toNat % 16)
      else Char.ofNat (87 + c.toNat % 16))]
  else [c]

/-- A JSON string literal as `JSON.stringify` renders it. -/
def jsonQuote (s : String) : String :=
  ⟨'"' :: (s.data.flatMap jsonEscChar) ++ ['"']⟩

mutual
/-- `JSON.stringify` of a JSON value (no spacing, as in the source's
`JSON.stringify(serp)`). -/
def jsonStringify : Json → String
  | .null => "null"
  | .bool b => cond b "true" "false"
  | .num n => toString n
  | .str s => jsonQuote s
  | .arr xs => "[" ++ jsonStringifyList xs ++ "]"
  | .obj fs => "\x7b" ++ jsonStringifyFields fs ++ "\x7d"
def jsonStringifyList : JsonList → String
  | .nil => ""
  | .cons x .nil => jsonStringify x
  | .cons x tl => jsonStringify x ++ "," ++ jsonStringifyList tl
def jsonStringifyFields : JsonFields → String
  | .nil => ""
  | .cons k v .nil => jsonQuote k ++ ":" ++ jsonStringify v
  | .cons k v tl => jsonQuote k ++ ":" ++ jsonStringify v ++ "," ++ jsonStringifyFields tl
end

/-! ### The URL scan regex

`/https?:\/\/[^"\\]*discogs\.com[^"\\]*/i` applied to the serialized
response (`text.match(...)` without `/g`: the leftmost match, as a whole).
At a given start the pattern matches iff the text starts with `http`,
optionally `s`, then `://` (case-insensitively), and the maximal following
run of characters other than `"` and `\` contains `discogs.com`
case-insensitively; with the two greedy `[^"\\]*` parts the matched
substring then always extends exactly to the end of that run. -/

/-- Try the URL pattern at the head of `cs`; returns the matched substring. -/
def matchDiscogsUrlAt (cs : List Char) : Option (List Char) :=
  if ciHead ['h', 't', 't', 'p'] cs then
    let afterHttp := cs.drop 4
    let schemeLen :=
      match afterHttp with
      | c :: tl => if (asciiLower c == 's') && ciHead [':', '/', '/'] tl then some 8 else
          if ciHead [':', '/', '/'] afterHttp then some 7 else none
      | [] => none
    match schemeLen with
    | none => none
    | some n =>
      let run := (cs.drop n).takeWhile (fun c => !(c == '"' || c == '\\'))
      if ciSub "discogs.com".data run then some (cs.take n ++ run) else none
  else none

/-- Leftmost match of the URL pattern anywhere in `cs`. -/
def firstDiscogsUrl : List Char → Option (List Char)
  | [] => none
  | c :: tl =>
    match matchDiscogsUrlAt (c :: tl) with
    | some m => some m
    | none => firstDiscogsUrl tl

/-! ### The resource-id regexes

`discogsUrl.match(/\/release\/(\d+)/)` and `/\/master\/(\d+)/`: leftmost
occurrence of the literal path segment followed by at least one digit; the
captured group is the maximal digit run (greedy `\d+`). -/

/-- Digits captured by `/PAT(\d+)/` when the case-sensitive literal `pat`
matches at the head. -/
def matchIdAt (pat : List Char) (cs : List Char) : Option (List Char) :=
  if pat.isPrefixOf cs then
    match (cs.drop pat.length).takeWhile Char.isDigit with
    | [] => none
    | d :: ds => some (d :: ds)
  else none

/-- Leftmost match of `/pat(\d+)/` in `cs`, returning the captured digits. -/
def firstIdMatch (pat : List Char) : List Char → Option (List Char)
  | [] => none
  | c :: tl =>
    match matchIdAt pat (c :: tl) with
    | some d => some d
    | none => firstIdMatch pat tl

/-! ### The hint extractor's cleaning steps

`title.replace(/\s*\([^)]*\)\s*/g, " ")`: every leftmost match of
whitespace*, `(`, a run without `)`, `)`, whitespace* is replaced by a
single space (a `(` with no later `)` matches nothing).  Then
`base.replace(/\s+\b(LP|Vinyl|Record|CD|Cassette|Album|Blu[- ]?ray|Box Set)\b.*$/i, "")`:
the leftmost occurrence of whitespace+ then one of the format-noise tokens
at a word boundary, with no line terminator between the token and the end
of the string (`.*` cannot cross one and `$` only matches at the end),
removes everything from the start of that whitespace to the end.  Then
`.trim()`. -/

/-- One match of `\s*\([^)]*\)\s*` at the head: the remainder after it.
The greedy `\s*` runs, the `(`, the run up to the first `)`, and the
trailing whitespace run are all forced. -/
def matchParen (cs : List Char) : Option (List Char) :=
  match cs.dropWhile jsWs with
  | c :: rest =>
    if c = '(' then
      match rest.dropWhile (fun x => !(x == ')')) with
      | d :: rest2 => if d = ')' then some (rest2.dropWhile jsWs) else none
      | [] => none
    else none
  | [] => none

/-- The global replace, with fuel (the input length always suffices). -/
def stripParensGo : Nat → List Char → List Char
  | 0, cs => cs
  | fuel + 1, cs =>
    match matchParen cs with
    | some rest => ' ' :: stripParensGo fuel rest
    | none =>
      match cs with
      | [] => []
      | c :: tl => c :: stripParensGo fuel tl

/-- `title.replace(/\s*\([^)]*\)\s*/g, " ")`. -/
def stripParens (cs : List Char) : List Char := stripParensGo cs.length cs

/-- The noise tokens of the suffix regex, lower-cased; `Blu[- ]?ray` expands
to its three disjoint alternatives. -/
def noiseTokens : List (List Char) :=
  ["lp", "vinyl", "record", "cd", "cassette", "album",
   "blu-ray", "blu ray", "bluray", "box set"].map String.data

/-- After-token requirement: the `\b` boundary and a line-terminator-free
remainder (`.*$` without `/m` or `/s` reaches the end of input or fails). -/
def noiseTail (cs : List Char) : Bool :=
  (match cs with
   | [] => true
   | c :: _ => !wordChar c) && cs.all (fun c => !lineTerm c)

/-- One of the noise tokens matches at the head (case-insensitively) with a
valid tail. -/
def noiseToken (cs : List Char) : Bool :=
  noiseTokens.any (fun tok => ciHead tok cs && noiseTail (cs.drop tok.length))

/-- The suffix regex matches at the head: at least one whitespace character
(the greedy `\s+` runs to the end of the whitespace run, where the token
must begin), then a noise token. -/
def noiseMatchAt (cs : List Char) : Bool :=
  (match cs with
   | [] => false
   | c :: _ => jsWs c) && noiseToken (cs.dropWhile jsWs)

/-- `base.replace(/\s+\b(...)\b.*$/i, "")`: everything from the leftmost
match (which always extends to the end of the string) is removed. -/
def stripNoise : List Char → List Char
  | [] => []
  | c :: tl => if noiseMatchAt (c :: tl) then [] else c :: stripNoise tl

/-- `String.prototype.trim()`. -/
def jsTrim (cs : List Char) : List Char :=
  ((cs.dropWhile jsWs).reverse.dropWhile jsWs).reverse

/-- The three cleaning steps of `parseArtistAndTitleFromTitle` (source lines
74-82): strip parentheticals, strip the trailing format-noise run, trim. -/
def cleanTitle (cs : List Char) : List Char := jsTrim (stripNoise (stripParens cs))

/-! ### The two separator patterns

Pattern A `/^(.*?)\s+by\s+(.+?)$/i` and pattern B `/^(.+?)\s+[-–]\s+(.+?)$/`.
The lazy leading group grows one character at a time (never across a line
terminator); the greedy `\s+` runs are forced up to the separator word,
whose first character is never whitespace; the lazy trailing group must
reach `$`, so for each backtracking width of the second `\s+` (greedy,
longest first) it is the whole remainder, acceptable when non-empty and
line-terminator free. -/

/-- For the second `\s+` of width `k` (tried from the greedy maximum down),
the trailing group `(.+?)$`: the remainder after `k` whitespace characters,
accepted when non-empty and terminator-free. -/
def tailGroup (after : List Char) : Nat → Option (List Char)
  | 0 => none
  | k + 1 =>
    let g2 := after.drop (k + 1)
    if g2 ≠ [] ∧ g2.all (fun c => !lineTerm c) then some g2 else tailGroup after k

/-- `\s+by\s+(.+?)$` at the head of `rest` (case-insensitive `by`): the
trailing captured group, if the separator matches here. -/
def sepBy (rest : List Char) : Option (List Char) :=
  match rest with
  | c :: _ =>
    if jsWs c then
      let afterWs := rest.dropWhile jsWs
      if ciHead ['b', 'y'] afterWs then
        let after := afterWs.drop 2
        match after with
        | c2 :: _ => if jsWs c2 then tailGroup after (after.takeWhile jsWs).length else none
        | [] => none
      else none
    else none
  | [] => none

/-- `\s+[-–]\s+(.+?)$` at the head of `rest`: the trailing captured group,
if the separator matches here. -/
def sepDash (rest : List Char) : Option (List Char) :=
  match rest with
  | c :: _ =>
    if jsWs c then
      let afterWs := rest.dropWhile jsWs
      match afterWs with
      | d :: after =>
        if d == '-' || d == '–' then
          match after with
          | c2 :: _ => if jsWs c2 then tailGroup after (after.takeWhile jsWs).length else none
          | [] => none
        else none
      | [] => none
    else none
  | [] => none

/-- Lazy scan for pattern A: the reversed first group so far, then the rest.
The first separator position wins (`(.*?)` is lazy); the first group can
never contain a line terminator. -/
def byScan : List Char → List Char → Option (List Char × List Char)
  | g1rev, rest =>
    match sepBy rest with
    | some g2 => some (g1rev.reverse, g2)
    | none =>
      match rest with
      | [] => none
      | c :: tl => if lineTerm c then none else byScan (c :: g1rev) tl

/-- `base.match(/^(.*?)\s+by\s+(.+?)$/i)`: the two captured groups. -/
def byMatch (base : List Char) : Option (List Char × List Char) := byScan [] base

/-- Lazy scan for pattern B (first group non-empty). -/
def dashScan : List Char → List Char → Option (List Char × List Char)
  | g1rev, rest =>
    match sepDash rest with
    | some g2 => some (g1rev.reverse, g2)
    | none =>
      match rest with
      | [] => none
      | c :: tl => if lineTerm c then none else dashScan (c :: g1rev) tl

/-- `base.match(/^(.+?)\s+[-–]\s+(.+?)$/)`: the two captured groups
(`(.+?)` needs at least one character before the separator). -/
def dashMatch (base : List Char) : Option (List Char × List Char) :=
  match base with
  | [] => none
  | c :: tl => if lineTerm c then none else dashScan [c] tl

/-- Artist/title pair extracted by the hint heuristic. -/
structure ParsedHint where
  artist : String
  title : String
deriving DecidableEq, Repr

/-- Pattern B branch of the extractor (source lines 93-98). -/
def dashCase (base : List Char) : Option ParsedHint :=
  match dashMatch base with
  | some (g1, g2) =>
    let artist := jsTrim g1
    let album := jsTrim g2
    if artist ≠ [] ∧ album ≠ [] then some ⟨⟨artist⟩, ⟨album⟩⟩ else none
  | none => none

/-- `parseArtistAndTitleFromTitle(title)` (source lines 70-102) on a string
argument; the handler guards the call with JavaScript truthiness, and
`if (!title) return null` makes the empty string yield no hint.  A pattern-A
match falls through to pattern B when one captured group trims to empty. -/
def parseArtistAndTitleFromTitle (title : String) : Option ParsedHint :=
  if title = "" then none
  else
    let base := cleanTitle title.data
    match byMatch base with
    | some (g1, g2) =>
      let album := jsTrim g1
      let artist := jsTrim g2
      if artist ≠ [] ∧ album ≠ [] then some ⟨⟨artist⟩, ⟨album⟩⟩ else dashCase base
    | none => dashCase base

/-! ### Result selection (source lines 20-65) -/

/-- The predicate of `pickDiscogsOrganic`'s `find` callback: with
`link = r.link || ""` (and likewise `displayed_link`, `source`), tests
`/discogs\.com/i` on `link` and `displayed`, `/discogs/i` on `source`.
A present but falsy field gives `""`; a truthy non-string field is coerced
by the regex test. -/
def isDiscogsResult (r : Json) : Bool :=
  let fieldOr := fun (k : String) =>
    match jsGet r k with
    | some v => if jsTruthy v then jsToStr v else ""
    | none => ""
  ciTest "discogs.com" (fieldOr "link") ||
  ciTest "discogs.com" (fieldOr "displayed_link") ||
  ciTest "discogs" (fieldOr "source")

/-- `Array.prototype.find`. -/
def jsFind (p : Json → Bool) : JsonList → Option Json
  | .nil => none
  | .cons x tl => if p x then some x else jsFind p tl

/-- `pickDiscogsOrganic(organic)` (source lines 21-33): `null` unless the
argument is an array; first element matching the Discogs test. -/
def pickDiscogsOrganic (organic : Json) : Option Json :=
  match organic with
  | .arr xs => jsFind isDiscogsResult xs
  | _ => none

/-- `serp.organic_results || []` (source lines 40 and 154). -/
def organicOr (serp : Json) : Json :=
  match jsGet serp "organic_results" with
  | some v => if jsTruthy v then v else Json.arr .nil
  | none => Json.arr .nil

/-- Debug-info values are JSON values; `none` models storing `undefined`
(such entries disappear when the body is serialized). -/
abbrev DebugInfo := List (String × Option Json)

/-- The synthetic result `{ link: url, title: null, thumbnail: null }` the
JSON scan wraps an extracted URL in (source line 53). -/
def scanResult (url : String) : Json :=
  jobj [("link", Json.str url), ("title", Json.null), ("thumbnail", Json.null)]

/-- `pickDiscogsFromAny(serp, debugInfo, prefix)` (source lines 37-57),
with the `debugInfo` mutation returned as the list of entries appended:
organic selection first, otherwise the whole-response JSON scan. -/
def pickDiscogsFromAny (serp : Json) (pfx : String) : Option Json × DebugInfo :=
  if !jsTruthy serp then (none, [])
  else
    match pickDiscogsOrganic (organicOr serp) with
    | some organicHit =>
      (some organicHit, [(pfx ++ "DiscogsSource", some (Json.str "organic_results"))])
    | none =>
      match firstDiscogsUrl (jsonStringify serp).data with
      | some url =>
        (some (scanResult ⟨url⟩),
         [(pfx ++ "DiscogsSource", some (Json.str "json_scan")),
          (pfx ++ "DiscogsUrlFromScan", some (Json.str ⟨url⟩))])
      | none => (none, [])

/-- `pickHintResult(organic)` (source lines 60-65): first result with a
truthy `link` that does not match `/discogs\.com/i`. -/
def pickHintResult (organic : Json) : Option Json :=
  match organic with
  | .arr xs =>
    jsFind (fun r =>
      match jsGet r "link" with
      | some v => jsTruthy v && !ciTest "discogs.com" (jsToStr v)
      | none => false) xs
  | _ => none

/-! ### The handler (source lines 104-262)

The two network collaborators are oracles: the SerpAPI transport maps each
query text to an outcome (the URL building and encoding around it are the
transport excluded by the spec), and the Discogs API transport maps each
request path to an outcome.  A JavaScript exception anywhere in the body is
caught by the outermost `catch`, which produces the 500 "Internal error"
response carrying `err.message`; the embedding constructs that response
directly at each throw site.  Alongside the response the embedding returns
the list of network calls issued, in order. -/

/-- Outcome of one `fetch` of the search provider: a parsed JSON body on a
success status, a non-success status with its body text, or a transport
failure (a rejected `fetch`/`json()`) carrying the message of the thrown
error. -/
inductive GoogleOutcome where
  | ok (serp : Json)
  | httpError (status : Nat) (body : String)
  | transport (msg : String)
deriving DecidableEq, Repr

/-- Outcome of one `fetch` of the Discogs API. -/
inductive DiscogsOutcome where
  | ok (json : Json)
  | notOk
  | transport (msg : String)
deriving DecidableEq, Repr

/-- A network call issued by the handler. -/
inductive NetCall where
  | google (q : String)
  | discogsApi (path : String)
deriving DecidableEq, Repr

/-- The handler's HTTP result: status code and the object passed to
`JSON.stringify` for the body. -/
structure Response where
  statusCode : Nat
  body : Json
deriving DecidableEq, Repr

/-- The handler's `event`: its query-string parameters (the transport always
supplies the object). -/
structure Event where
  queryStringParameters : List (String × String)

/-- The environment: `SERPAPI_API_KEY` (required) and `DISCOGS_TOKEN`
(optional; it only shapes the auth header inside the excluded transport). -/
structure Env where
  SERPAPI_API_KEY : Option String
  DISCOGS_TOKEN : Option String

/-- `googleSearch(query, apiKey)` (source lines 3-18): a non-success
response throws `SerpAPI error {status}: {first 500 chars of body}`; a
transport failure throws as-is. -/
def googleSearch (goracle : String → GoogleOutcome) (query : String) :
    Except String Json :=
  match goracle query with
  | .ok serp => .ok serp
  | .httpError status body =>
    .error ("SerpAPI error " ++ toString status ++ ": " ++ body.take 500)
  | .transport msg => .error msg

/-- `fetchDiscogsApi(path)` (source lines 216-222): `null` on a non-success
response, the parsed body otherwise; a transport failure throws. -/
def fetchDiscogsApi (doracle : String → DiscogsOutcome) (path : String) :
    Except String Json :=
  match doracle path with
  | .ok json => .ok json
  | .notOk => .ok Json.null
  | .transport msg => .error msg

/-- `x || null` on a JSON value (with `undefined` folded to `null` first by
the caller). -/
def jsOrNull (v : Json) : Json := if jsTruthy v then v else Json.null

/-- `!!serp.organic_results && serp.organic_results.length` as stored in the
debug info: `false` when the field is absent or falsy, else its `.length`
(which is `undefined`, i.e. `none`, for a truthy value without one). -/
def hasOrganicDbg (serp : Json) : Option Json :=
  match jsGet serp "organic_results" with
  | some v => if jsTruthy v then jsLength v else some (Json.bool false)
  | none => some (Json.bool false)

/-- A parsed hint as stored in `debugInfo.hintParsed`. -/
def parsedToJson : Option ParsedHint → Json
  | none => Json.null
  | some p => jobj [("artist", Json.str p.artist), ("title", Json.str p.title)]

/-- The serialized debug object: entries holding `undefined` are omitted by
`JSON.stringify`. -/
def debugJson (d : DebugInfo) : Json :=
  Json.obj (jfields (d.filterMap (fun kv => kv.2.map (fun v => (kv.1, v)))))

/-- The 500 "Internal error" response of the outermost catch (source lines
252-261). -/
def internalError (details : String) : Response :=
  { statusCode := 500,
    body := jobj [("error", Json.str "Internal error"), ("details", Json.str details)] }

/-- The 404 no-match response (source lines 185-196). -/
def noMatchResponse (query searchSource : String) (debug : DebugInfo) : Response :=
  { statusCode := 404,
    body := jobj [("error", Json.str "No Discogs link found in Google results"),
                  ("query", Json.str query),
                  ("searchSource", Json.str searchSource),
                  ("debug", debugJson debug)] }

/-- `discogsJson.title` (with `undefined` folded to `null`). -/
def catalogTitle (discogsJson : Json) : Json := (jsGet discogsJson "title").getD Json.null

/-- `discogsJson.images`. -/
def catalogImages (discogsJson : Json) : Json := (jsGet discogsJson "images").getD Json.null

/-- `discogsJson.images && discogsJson.images.length > 0` (source line 234):
`undefined > 0` is false, so only a string or array length can pass. -/
def catalogImagesOk (discogsJson : Json) : Bool :=
  jsTruthy (catalogImages discogsJson) &&
  (match jsLength (catalogImages discogsJson) with
   | some (Json.num n) => decide (0 < n)
   | _ => false)

/-- `discogsJson.images[0]` (source line 235). -/
def catalogFirstImage (discogsJson : Json) : Json :=
  (jsIndex0 (catalogImages discogsJson)).getD Json.null

/-- `img.uri`. -/
def imgUri (img : Json) : Json := (jsGet img "uri").getD Json.null

/-- `img.uri150`. -/
def imgUri150 (img : Json) : Json := (jsGet img "uri150").getD Json.null

/-- The enrichment merge (source lines 232-238): given the search-stage
`title` and `coverImage` and the fetched `discogsJson`, the merged pair.
The title is backfilled only when falsy and the catalog title truthy; the
cover is replaced by the first image's `uri`, else its `uri150`, else kept,
whenever `images` is truthy with `.length > 0`. -/
def enrichMerge (title coverImage discogsJson : Json) : Json × Json :=
  if jsTruthy discogsJson then
    let title1 :=
      if !jsTruthy title && jsTruthy (catalogTitle discogsJson) then catalogTitle discogsJson
      else title
    let cover1 :=
      if catalogImagesOk discogsJson then
        let img := catalogFirstImage discogsJson
        if jsTruthy (imgUri img) then imgUri img
        else if jsTruthy (imgUri150 img) then imgUri150 img
        else coverImage
      else coverImage
    (title1, cover1)
  else (title, coverImage)

/-- The tail of the handler from the final link check on (source lines
185-251): the 404 no-match return, the Discogs id extraction and optional
enrichment fetch, and the 200 response. -/
def finishUp (doracle : String → DiscogsOutcome)
    (query primaryGoogleQuery searchSource : String)
    (chosen : Option Json) (debug : DebugInfo) (callLog : List NetCall) :
    Response × List NetCall :=
  match chosen with
  | none => (noMatchResponse query searchSource debug, callLog)
  | some c =>
    let linkJ := (jsGet c "link").getD Json.null
    if !jsTruthy linkJ then (noMatchResponse query searchSource debug, callLog)
    else
      match linkJ with
      | Json.str discogsUrl =>
        let title := jsOrNull ((jsGet c "title").getD Json.null)
        let coverImage := jsOrNull ((jsGet c "thumbnail").getD Json.null)
        let fetchPlan :=
          match firstIdMatch "/release/".data discogsUrl.data with
          | some id => some ("/releases/" ++ (⟨id⟩ : String))
          | none =>
            match firstIdMatch "/master/".data discogsUrl.data with
            | some id => some ("/masters/" ++ (⟨id⟩ : String))
            | none => none
        match fetchPlan with
        | none =>
          let (title1, cover1) := enrichMerge title coverImage Json.null
          (okResponse query primaryGoogleQuery searchSource discogsUrl title1 cover1 debug,
           callLog)
        | some path =>
          match fetchDiscogsApi doracle path with
          | .error msg => (internalError msg, callLog ++ [NetCall.discogsApi path])
          | .ok discogsJson =>
            let (title1, cover1) := enrichMerge title coverImage discogsJson
            (okResponse query primaryGoogleQuery searchSource discogsUrl title1 cover1 debug,
             callLog ++ [NetCall.discogsApi path])
      | _ =>
        -- a truthy non-string link: `discogsUrl.match(...)` throws
        (internalError "discogsUrl.match is not a function", callLog)
where
  /-- The 200 response (source lines 240-251). -/
  okResponse (query primaryGoogleQuery searchSource discogsUrl : String)
      (title coverImage : Json) (debug : DebugInfo) : Response :=
    { statusCode := 200,
      body := jobj [("query", Json.str query),
                    ("searchSource", Json.str searchSource),
                    ("primaryGoogleQuery", Json.str primaryGoogleQuery),
                    ("discogsUrl", Json.str discogsUrl),
                    ("title", title),
                    ("coverImage", coverImage),
                    ("debug", debugJson debug)] }

/-- `exports.handler` (source lines 104-262): the three-stage pipeline.
Stage 1 restricts the query to the Discogs site; stage 2 re-runs the raw
query; stage 3 mines the top non-Discogs fallback result's title for an
artist/title hint and re-runs a quoted site-restricted query.  A failed
stage-1, stage-2 or stage-3 search call throws and is caught only by the
outermost catch (the 500 response).  Returns the response and the network
calls issued. -/
def handler (event : Event) (env : Env)
    (goracle : String → GoogleOutcome) (doracle : String → DiscogsOutcome) :
    Response × List NetCall :=
  let query := ((event.queryStringParameters.lookup "query").getD "")
  if query = "" then
    ({ statusCode := 400, body := jobj [("error", Json.str "Missing query parameter")] }, [])
  else
    let apiKey := env.SERPAPI_API_KEY.getD ""
    if apiKey = "" then
      ({ statusCode := 500,
         body := jobj [("error", Json.str "Missing SERPAPI_API_KEY environment variable")] }, [])
    else
      let primaryGoogleQuery := "site:discogs.com " ++ query
      match googleSearch goracle primaryGoogleQuery with
      | .error msg => (internalError msg, [NetCall.google primaryGoogleQuery])
      | .ok serp =>
        let debug1 : DebugInfo :=
          [("primaryQuery", some (Json.str primaryGoogleQuery)),
           ("primaryHasOrganic", hasOrganicDbg serp)]
        match pickDiscogsFromAny serp "primary" with
        | (some chosen, dadd) =>
          finishUp doracle query primaryGoogleQuery "primary" (some chosen)
            (debug1 ++ dadd) [NetCall.google primaryGoogleQuery]
        | (none, dadd1) =>
          -- stage 2: general search without the site: filter
          let debug2 := debug1 ++ dadd1 ++ [("fallbackGoogleQuery", some (Json.str query))]
          match googleSearch goracle query with
          | .error msg =>
            (internalError msg, [NetCall.google primaryGoogleQuery, NetCall.google query])
          | .ok serp2 =>
            let log2 := [NetCall.google primaryGoogleQuery, NetCall.google query]
            let debug3 := debug2 ++ [("fallbackHasOrganic", hasOrganicDbg serp2)]
            match pickDiscogsFromAny serp2 "fallback" with
            | (some chosen, dadd) =>
              finishUp doracle query primaryGoogleQuery "fallback" (some chosen)
                (debug3 ++ dadd) log2
            | (none, dadd2) =>
              -- stage 2b: hint from the top non-Discogs result
              let debug4 := debug3 ++ dadd2
              let hint := pickHintResult (organicOr serp2)
              let debug5 := debug4 ++
                [("hintTitle", match hint with
                  | some h => jsGet h "title"
                  | none => some Json.null),
                 ("hintLink", match hint with
                  | some h => jsGet h "link"
                  | none => some Json.null)]
              match hint with
              | none => finishUp doracle query primaryGoogleQuery "fallback" none debug5 log2
              | some h =>
                let hintTitleJ := (jsGet h "title").getD Json.null
                if !jsTruthy hintTitleJ then
                  finishUp doracle query primaryGoogleQuery "fallback" none debug5 log2
                else
                  match hintTitleJ with
                  | Json.str hintTitle =>
                    let parsed := parseArtistAndTitleFromTitle hintTitle
                    let debug6 := debug5 ++ [("hintParsed", some (parsedToJson parsed))]
                    match parsed with
                    | none =>
                      finishUp doracle query primaryGoogleQuery "fallback" none debug6 log2
                    | some p =>
                      let hintDiscogsQuery :=
                        "site:discogs.com \"" ++ p.artist ++ "\" \"" ++ p.title ++ "\""
                      let debug7 := debug6 ++
                        [("hintDiscogsQuery", some (Json.str hintDiscogsQuery))]
                      match googleSearch goracle hintDiscogsQuery with
                      | .error msg =>
                        (internalError msg, log2 ++ [NetCall.google hintDiscogsQuery])
                      | .ok serp3 =>
                        let log3 := log2 ++ [NetCall.google hintDiscogsQuery]
                        let debug8 := debug7 ++ [("hintHasOrganic", hasOrganicDbg serp3)]
                        match pickDiscogsFromAny serp3 "hint" with
                        | (some hintChosen, dadd3) =>
                          finishUp doracle query primaryGoogleQuery "hint" (some hintChosen)
                            (debug8 ++ dadd3) log3
                        | (none, dadd3) =>
                          finishUp doracle query primaryGoogleQuery "fallback" none
                            (debug8 ++ dadd3) log3
                  | _ =>
                    -- a truthy non-string title: `title.replace(...)` throws
                    (internalError "title.replace is not a function", log2)

/-! ### Example inputs from the specification

The apostrophe of the worked examples is spelled through its code point. -/

/-- An apostrophe (U+0027). -/
def apos : String := ⟨[Char.ofNat 39]⟩

/-- The first worked example title of the spec. -/
def exTitle1 : String :=
  "Newk" ++ apos ++ "s Time (Blue Note Classic Vinyl Series) by Rollins, Sonny (Record, 2023)"

/-- The second worked example title of the spec. -/
def exTitle2 : String := "Sonny Rollins - Newk" ++ apos ++ "s Time"

/-- The album name both examples should extract. -/
def exAlbum : String := "Newk" ++ apos ++ "s Time"

/-- No `(` in the list is followed by a later `)`: once this holds the
parenthetical regex can never match again. -/
def ParenClean (cs : List Char) : Prop :=
  ∀ a b, cs = a ++ '(' :: b → ')' ∉ b

/-! ## Theorems -/

/-- C4: for every request whose `query` parameter is empty or missing (so
that `event.queryStringParameters.query || ""` is empty), the handler
returns the 400 "Missing query parameter" rejection at once, with an empty
network-call log: no network call is made. -/
theorem C4_invalid_input_immediate (event : Event) (env : Env)
    (goracle : String → GoogleOutcome) (doracle : String → DiscogsOutcome)
    (h : (event.queryStringParameters.lookup "query").getD "" = "") :
    handler event env goracle doracle =
      ({ statusCode := 400,
         body := jobj [("error", Json.str "Missing query parameter")] }, []) := by
  simp [handler, h]

/-- Witness for C4: a request with no parameters at all. -/
theorem C4_invalid_input_immediate_witness :
    handler ⟨[]⟩ ⟨some "k", none⟩ (fun _ => GoogleOutcome.ok Json.null)
      (fun _ => DiscogsOutcome.notOk) =
      ({ statusCode := 400,
         body := jobj [("error", Json.str "Missing query parameter")] }, []) :=
  C4_invalid_input_immediate ⟨[]⟩ ⟨some "k", none⟩ _ _ rfl

/-- C7: the two worked examples of the spec: the hint extractor maps
`"Newk's Time (Blue Note Classic Vinyl Series) by Rollins, Sonny (Record, 2023)"`
to artist `"Rollins, Sonny"` and title `"Newk's Time"`, and
`"Sonny Rollins - Newk's Time"` to artist `"Sonny Rollins"` and title
`"Newk's Time"`. -/
theorem C7_worked_examples :
    parseArtistAndTitleFromTitle exTitle1 = some ⟨"Rollins, Sonny", exAlbum⟩ ∧
    parseArtistAndTitleFromTitle exTitle2 = some ⟨"Sonny Rollins", exAlbum⟩ := by
  constructor <;> decide

/-- C8: on any non-empty title whose cleaned form matches both pattern A
(`"<title> by <artist>"`) and pattern B (`"<artist> - <title>"`), with both
captured groups non-empty after trimming in each, the extractor returns the
pattern-A parse: pattern A is tried first and only the first successful
pattern applies. -/
theorem C8_pattern_a_has_priority (t : String) (g1 g2 d1 d2 : List Char)
    (ht : ¬ t = "")
    (hby : byMatch (cleanTitle t.data) = some (g1, g2))
    (hg2 : jsTrim g2 ≠ []) (hg1 : jsTrim g1 ≠ [])
    (hdash : dashMatch (cleanTitle t.data) = some (d1, d2))
    (hd1 : jsTrim d1 ≠ []) (hd2 : jsTrim d2 ≠ []) :
    parseArtistAndTitleFromTitle t = some ⟨⟨jsTrim g2⟩, ⟨jsTrim g1⟩⟩ := by
  simp [parseArtistAndTitleFromTitle, ht, hby, hg1, hg2]

/-- Witness for C8: `"X by Y - Z"` matches both patterns and parses as
pattern A (artist `"Y - Z"`, title `"X"`), not as pattern B. -/
theorem C8_pattern_a_has_priority_witness :
    parseArtistAndTitleFromTitle "X by Y - Z" = some ⟨"Y - Z", "X"⟩ := by
  have h := C8_pattern_a_has_priority "X by Y - Z" "X".data "Y - Z".data
    "X by Y".data "Z".data (by decide) (by decide) (by decide) (by decide)
    (by decide) (by decide) (by decide)
  exact h.trans (by decide)

/-- C5: in the enrich step, when a catalog entry was fetched (truthy
`discogsJson`), the title is backfilled from the catalog entry only when no
search-stage title is present (a truthy title is never overridden; a falsy
one is replaced exactly when the catalog title is truthy), while the cover
image is taken from the catalog entry's first image — its `uri`, else its
`uri150` — whenever such a URL is truthy, overriding any search-stage
cover; in every other case both values are left unchanged. -/
theorem C5_enrich_merge_rules (title coverImage discogsJson : Json)
    (hdj : jsTruthy discogsJson = true) :
    (jsTruthy title = true →
      (enrichMerge title coverImage discogsJson).1 = title) ∧
    (jsTruthy title = false → jsTruthy (catalogTitle discogsJson) = true →
      (enrichMerge title coverImage discogsJson).1 = catalogTitle discogsJson) ∧
    (jsTruthy title = false → jsTruthy (catalogTitle discogsJson) = false →
      (enrichMerge title coverImage discogsJson).1 = title) ∧
    (catalogImagesOk discogsJson = true →
      jsTruthy (imgUri (catalogFirstImage discogsJson)) = true →
      (enrichMerge title coverImage discogsJson).2 = imgUri (catalogFirstImage discogsJson)) ∧
    (catalogImagesOk discogsJson = true →
      jsTruthy (imgUri (catalogFirstImage discogsJson)) = false →
      jsTruthy (imgUri150 (catalogFirstImage discogsJson)) = true →
      (enrichMerge title coverImage discogsJson).2 = imgUri150 (catalogFirstImage discogsJson)) ∧
    (catalogImagesOk discogsJson = true →
      jsTruthy (imgUri (catalogFirstImage discogsJson)) = false →
      jsTruthy (imgUri150 (catalogFirstImage discogsJson)) = false →
      (enrichMerge title coverImage discogsJson).2 = coverImage) ∧
    (catalogImagesOk discogsJson = false →
      (enrichMerge title coverImage discogsJson).2 = coverImage) := by
  refine ⟨?_, ?_, ?_, ?_, ?_, ?_, ?_⟩ <;> intros <;> simp_all [enrichMerge]

/-- Witness for C5: a catalog entry with a title and one image with a
primary URL, merged over a search stage that already has a title and a
cover: the title is kept and the cover overridden. -/
theorem C5_enrich_merge_rules_witness :
    (enrichMerge (Json.str "T") (Json.str "TH")
      (jobj [("title", Json.str "DT"),
             ("images", jarr [jobj [("uri", Json.str "U"),
                                    ("uri150", Json.str "U150")]])])).1 = Json.str "T" ∧
    (enrichMerge (Json.str "T") (Json.str "TH")
      (jobj [("title", Json.str "DT"),
             ("images", jarr [jobj [("uri", Json.str "U"),
                                    ("uri150", Json.str "U150")]])])).2 = Json.str "U" ∧
    (enrichMerge Json.null (Json.str "TH")
      (jobj [("title", Json.str "DT")])).1 = Json.str "DT" ∧
    (enrichMerge Json.null (Json.str "TH")
      (jobj [("title", Json.str "DT")])).2 = Json.str "TH" := by
  have h1 := C5_enrich_merge_rules (Json.str "T") (Json.str "TH")
    (jobj [("title", Json.str "DT"),
           ("images", jarr [jobj [("uri", Json.str "U"),
                                  ("uri150", Json.str "U150")]])]) (by decide)
  have h2 := C5_enrich_merge_rules Json.null (Json.str "TH")
    (jobj [("title", Json.str "DT")]) (by decide)
  refine ⟨h1.1 (by decide), ?_, ?_, ?_⟩
  · exact (h1.2.2.2.1 (by decide) (by decide)).trans (by decide)
  · exact (h2.2.1 (by decide) (by decide)).trans (by decide)
  · exact h2.2.2.2.2.2.2 (by decide)

/-- C6: whenever structured matching over the organic result list finds no
Discogs entry (and the response is truthy), `pickDiscogsFromAny` serializes
the whole response and takes the first substring matching the Discogs URL
pattern: if one exists it returns the synthetic result carrying only that
link (title and thumbnail `null`), and otherwise it returns nothing. -/
theorem C6_scan_fallback (serp : Json) (pfx : String)
    (hser : jsTruthy serp = true)
    (horg : pickDiscogsOrganic (organicOr serp) = none) :
    (∀ url, firstDiscogsUrl (jsonStringify serp).data = some url →
      pickDiscogsFromAny serp pfx =
        (some (scanResult ⟨url⟩),
         [(pfx ++ "DiscogsSource", some (Json.str "json_scan")),
          (pfx ++ "DiscogsUrlFromScan", some (Json.str ⟨url⟩))])) ∧
    (firstDiscogsUrl (jsonStringify serp).data = none →
      pickDiscogsFromAny serp pfx = (none, [])) := by
  constructor
  · intro url hurl
    simp [pickDiscogsFromAny, hser, horg, hurl]
  · intro hnone
    simp [pickDiscogsFromAny, hser, horg, hnone]

/-- Witness for C6: a response with an empty result list and a Discogs URL
in another field is recovered as a synthetic link-only result. -/
theorem C6_scan_fallback_witness :
    pickDiscogsFromAny
      (jobj [("organic_results", jarr []),
             ("answer_box", jobj [("link", Json.str "https://www.discogs.com/master/999-y")])])
      "primary" =
      (some (scanResult "https://www.discogs.com/master/999-y"),
       [("primaryDiscogsSource", some (Json.str "json_scan")),
        ("primaryDiscogsUrlFromScan", some (Json.str "https://www.discogs.com/master/999-y"))]) := by
  have h := (C6_scan_fallback
    (jobj [("organic_results", jarr []),
           ("answer_box", jobj [("link", Json.str "https://www.discogs.com/master/999-y")])])
    "primary" (by decide) (by decide)).1
    "https://www.discogs.com/master/999-y".data (by decide)
  exact h.trans (by decide)

/-- C10: when the first Discogs-matching element of the primary organic
result list has no `link` field (it matched via `displayed_link` or
`source`), the pipeline terminates as the 404 no-match outcome: the
link-less candidate is chosen (the debug trace records `organic_results`,
so the whole-response scan was preempted), no further search stage and no
enrichment call runs (the call log holds only the primary search), and the
final link check rejects the candidate with `searchSource` still
`"primary"`. -/
theorem C10_linkless_candidate_preempts_scan (event : Event) (env : Env)
    (goracle : String → GoogleOutcome) (doracle : String → DiscogsOutcome)
    (q : String) (serp r : Json)
    (hq : (event.queryStringParameters.lookup "query").getD "" = q)
    (hqne : q ≠ "")
    (hkey : env.SERPAPI_API_KEY.getD "" ≠ "")
    (hserp : goracle ("site:discogs.com " ++ q) = .ok serp)
    (htr : jsTruthy serp = true)
    (hpick : pickDiscogsOrganic (organicOr serp) = some r)
    (hlink : jsGet r "link" = none) :
    handler event env goracle doracle =
      (noMatchResponse q "primary"
        [("primaryQuery", some (Json.str ("site:discogs.com " ++ q))),
         ("primaryHasOrganic", hasOrganicDbg serp),
         ("primaryDiscogsSource", some (Json.str "organic_results"))],
       [NetCall.google ("site:discogs.com " ++ q)]) := by
  have hp : pickDiscogsFromAny serp "primary" =
      (some r, [("primaryDiscogsSource", some (Json.str "organic_results"))]) := by
    simp [pickDiscogsFromAny, htr, hpick]
  simp [handler, hq, hqne, hkey, hserp, googleSearch, hp, finishUp, hlink, jsTruthy]

/-- Witness for C10: a primary response whose only organic result shows
`www.discogs.com` in `displayed_link` but carries no `link`. -/
theorem C10_linkless_candidate_preempts_scan_witness :
    handler ⟨[("query", "kind of blue")]⟩ ⟨some "k", none⟩
      (fun s => if s = "site:discogs.com kind of blue"
        then GoogleOutcome.ok
          (jobj [("organic_results",
                  jarr [jobj [("displayed_link", Json.str "www.discogs.com › release")]])])
        else GoogleOutcome.ok (jobj []))
      (fun _ => DiscogsOutcome.notOk) =
      (noMatchResponse "kind of blue" "primary"
        [("primaryQuery", some (Json.str "site:discogs.com kind of blue")),
         ("primaryHasOrganic",
          hasOrganicDbg (jobj [("organic_results",
                  jarr [jobj [("displayed_link", Json.str "www.discogs.com › release")]])])),
         ("primaryDiscogsSource", some (Json.str "organic_results"))],
       [NetCall.google "site:discogs.com kind of blue"]) := by
  have h := C10_linkless_candidate_preempts_scan
    ⟨[("query", "kind of blue")]⟩ ⟨some "k", none⟩
    (fun s => if s = "site:discogs.com kind of blue"
      then GoogleOutcome.ok
        (jobj [("organic_results",
                jarr [jobj [("displayed_link", Json.str "www.discogs.com › release")]])])
      else GoogleOutcome.ok (jobj []))
    (fun _ => DiscogsOutcome.notOk)
    "kind of blue"
    (jobj [("organic_results",
            jarr [jobj [("displayed_link", Json.str "www.discogs.com › release")]])])
    (jobj [("displayed_link", Json.str "www.discogs.com › release")])
    rfl (by decide) (by decide) (by decide) (by decide) (by decide) (by decide)
  exact h.trans (by decide)

/-- C2 counterexample: a run in which every stage is exhausted without a
catalog result (all searches return an empty response) ends in the 404
no-match outcome whose `searchSource` is `"fallback"`, not `"none"`: the
code never produces a `"none"` search source. -/
theorem C2_counterexample :
    (handler ⟨[("query", "kind of blue")]⟩ ⟨some "k", none⟩
      (fun _ => GoogleOutcome.ok (jobj [])) (fun _ => DiscogsOutcome.notOk)).1.statusCode
        = 404 ∧
    jsGet (handler ⟨[("query", "kind of blue")]⟩ ⟨some "k", none⟩
      (fun _ => GoogleOutcome.ok (jobj [])) (fun _ => DiscogsOutcome.notOk)).1.body
      "searchSource" = some (Json.str "fallback") ∧
    ¬ jsGet (handler ⟨[("query", "kind of blue")]⟩ ⟨some "k", none⟩
      (fun _ => GoogleOutcome.ok (jobj [])) (fun _ => DiscogsOutcome.notOk)).1.body
      "searchSource" = some (Json.str "none") := by
  refine ⟨by decide, by decide, by decide⟩

/-- The fields of the 404 no-match body: its `searchSource` is the given
stage name, it has no `discogsUrl` or `canonicalUrl` entry, and it carries
the serialized trace. -/
theorem noMatchResponse_facts (q ss : String) (debug : DebugInfo) :
    jsGet (noMatchResponse q ss debug).body "searchSource" = some (Json.str ss) ∧
    jsGet (noMatchResponse q ss debug).body "discogsUrl" = none ∧
    jsGet (noMatchResponse q ss debug).body "canonicalUrl" = none ∧
    jsGet (noMatchResponse q ss debug).body "debug" = some (debugJson debug) :=
  ⟨rfl, rfl, rfl, rfl⟩

/-- Every 404 result of the handler tail is the no-match response for its
stage name and trace: the other exits of `finishUp` are the 200 outcome and
the 500 internal error. -/
theorem finishUp_404 (doracle : String → DiscogsOutcome)
    (query primaryGoogleQuery searchSource : String)
    (chosen : Option Json) (debug : DebugInfo) (callLog : List NetCall)
    (h404 : (finishUp doracle query primaryGoogleQuery searchSource chosen debug callLog).1.statusCode = 404) :
    (finishUp doracle query primaryGoogleQuery searchSource chosen debug callLog).1 =
      noMatchResponse query searchSource debug := by
  cases chosen with
  | none => rfl
  | some c =>
    by_cases hl : jsTruthy ((jsGet c "link").getD Json.null) = true
    · cases hlc : (jsGet c "link").getD Json.null with
      | str url =>
        rw [hlc] at hl
        simp only [finishUp, hlc, hl] at h404 ⊢
        cases hrel : firstIdMatch "/release/".data url.data with
        | some id =>
          simp only [hrel] at h404
          cases hdo : doracle ("/releases/" ++ (⟨id⟩ : String)) with
          | ok j =>
            rcases henr : enrichMerge (jsOrNull ((jsGet c "title").getD Json.null))
              (jsOrNull ((jsGet c "thumbnail").getD Json.null)) j with ⟨t1, c1⟩
            simp [fetchDiscogsApi, hdo, henr, finishUp.okResponse] at h404
          | notOk =>
            rcases henr : enrichMerge (jsOrNull ((jsGet c "title").getD Json.null))
              (jsOrNull ((jsGet c "thumbnail").getD Json.null)) Json.null with ⟨t1, c1⟩
            simp [fetchDiscogsApi, hdo, henr, finishUp.okResponse] at h404
          | transport m =>
            simp [fetchDiscogsApi, hdo, internalError] at h404
        | none =>
          simp only [hrel] at h404
          cases hmas : firstIdMatch "/master/".data url.data with
          | some id =>
            simp only [hmas] at h404
            cases hdo : doracle ("/masters/" ++ (⟨id⟩ : String)) with
            | ok j =>
              rcases henr : enrichMerge (jsOrNull ((jsGet c "title").getD Json.null))
                (jsOrNull ((jsGet c "thumbnail").getD Json.null)) j with ⟨t1, c1⟩
              simp [fetchDiscogsApi, hdo, henr, finishUp.okResponse] at h404
            | notOk =>
              rcases henr : enrichMerge (jsOrNull ((jsGet c "title").getD Json.null))
                (jsOrNull ((jsGet c "thumbnail").getD Json.null)) Json.null with ⟨t1, c1⟩
              simp [fetchDiscogsApi, hdo, henr, finishUp.okResponse] at h404
            | transport m =>
              simp [fetchDiscogsApi, hdo, internalError] at h404
          | none =>
            rcases henr : enrichMerge (jsOrNull ((jsGet c "title").getD Json.null))
              (jsOrNull ((jsGet c "thumbnail").getD Json.null)) Json.null with ⟨t1, c1⟩
            simp [hmas, henr, finishUp.okResponse] at h404
      | null => rw [hlc] at hl; simp [jsTruthy] at hl
      | bool b =>
        rw [hlc] at hl
        simp only [finishUp, hlc, hl, internalError] at h404
        simp at h404
      | num n =>
        rw [hlc] at hl
        simp only [finishUp, hlc, hl, internalError] at h404
        simp at h404
      | arr xs =>
        rw [hlc] at hl
        simp only [finishUp, hlc, hl, internalError] at h404
        simp at h404
      | obj fs =>
        rw [hlc] at hl
        simp only [finishUp, hlc, hl, internalError] at h404
        simp at h404
    · simp only [finishUp]
      rw [if_pos (by rw [Bool.not_eq_true] at hl; rw [hl]; rfl)]

/-- Every 404 result of the handler is a no-match response whose
`searchSource` is one of `"primary"`, `"fallback"` or `"hint"` — the stage
name last assigned before the final link check. -/
theorem handler_404_shape (event : Event) (env : Env)
    (goracle : String → GoogleOutcome) (doracle : String → DiscogsOutcome)
    (h404 : (handler event env goracle doracle).1.statusCode = 404) :
    ∃ ss debug, (ss = "primary" ∨ ss = "fallback" ∨ ss = "hint") ∧
      (handler event env goracle doracle).1 =
        noMatchResponse ((event.queryStringParameters.lookup "query").getD "") ss debug := by
  by_cases hq : ((event.queryStringParameters.lookup "query").getD "") = ""
  · simp [handler, hq] at h404
  · by_cases hk : env.SERPAPI_API_KEY.getD "" = ""
    · simp [handler, hq, hk] at h404
    · cases hg1 : goracle ("site:discogs.com " ++ (event.queryStringParameters.lookup "query").getD "") with
      | httpError st b => simp [handler, hq, hk, googleSearch, hg1, internalError] at h404
      | transport m => simp [handler, hq, hk, googleSearch, hg1, internalError] at h404
      | ok serp1 =>
        rcases hp1 : pickDiscogsFromAny serp1 "primary" with ⟨chosen1, dadd1⟩
        cases chosen1 with
        | some c =>
          simp only [handler, googleSearch, hq, hk, hg1, hp1, ite_false, ite_true] at h404 ⊢
          exact ⟨"primary", _, Or.inl rfl, finishUp_404 _ _ _ _ _ _ _ h404⟩
        | none =>
          cases hg2 : goracle ((event.queryStringParameters.lookup "query").getD "") with
          | httpError st b =>
            simp [handler, hq, hk, googleSearch, hg1, hp1, hg2, internalError] at h404
          | transport m =>
            simp [handler, hq, hk, googleSearch, hg1, hp1, hg2, internalError] at h404
          | ok serp2 =>
            rcases hp2 : pickDiscogsFromAny serp2 "fallback" with ⟨chosen2, dadd2⟩
            cases chosen2 with
            | some c2 =>
              simp only [handler, googleSearch, hq, hk, hg1, hp1, hg2, hp2, ite_false, ite_true] at h404 ⊢
              exact ⟨"fallback", _, Or.inr (Or.inl rfl), finishUp_404 _ _ _ _ _ _ _ h404⟩
            | none =>
              cases hh : pickHintResult (organicOr serp2) with
              | none =>
                simp only [handler, googleSearch, hq, hk, hg1, hp1, hg2, hp2, hh, ite_false, ite_true] at h404 ⊢
                exact ⟨"fallback", _, Or.inr (Or.inl rfl), finishUp_404 _ _ _ _ _ _ _ h404⟩
              | some h =>
                by_cases htr : jsTruthy ((jsGet h "title").getD Json.null) = true
                · cases hjc : (jsGet h "title").getD Json.null with
                  | null => rw [hjc] at htr; simp [jsTruthy] at htr
                  | bool b =>
                    rw [hjc] at htr
                    simp [handler, hq, hk, googleSearch, hg1, hp1, hg2, hp2, hh, hjc, htr,
                      internalError] at h404
                  | num n =>
                    rw [hjc] at htr
                    simp [handler, hq, hk, googleSearch, hg1, hp1, hg2, hp2, hh, hjc, htr,
                      internalError] at h404
                  | arr xs =>
                    rw [hjc] at htr
                    simp [handler, hq, hk, googleSearch, hg1, hp1, hg2, hp2, hh, hjc, htr,
                      internalError] at h404
                  | obj fs =>
                    rw [hjc] at htr
                    simp [handler, hq, hk, googleSearch, hg1, hp1, hg2, hp2, hh, hjc, htr,
                      internalError] at h404
                  | str ht =>
                    rw [hjc] at htr
                    cases hpar : parseArtistAndTitleFromTitle ht with
                    | none =>
                      simp only [handler, googleSearch, hq, hk, hg1, hp1, hg2, hp2, hh, hjc,
                        htr, hpar, Bool.not_true, Bool.false_eq_true, ite_false, ite_true] at h404 ⊢
                      exact ⟨"fallback", _, Or.inr (Or.inl rfl), finishUp_404 _ _ _ _ _ _ _ h404⟩
                    | some p =>
                      cases hg3 : goracle ("site:discogs.com \"" ++ p.artist ++ "\" \"" ++ p.title ++ "\"") with
                      | httpError st b =>
                        simp [handler, hq, hk, googleSearch, hg1, hp1, hg2, hp2, hh, hjc, htr,
                          hpar, hg3, internalError] at h404
                      | transport m =>
                        simp [handler, hq, hk, googleSearch, hg1, hp1, hg2, hp2, hh, hjc, htr,
                          hpar, hg3, internalError] at h404
                      | ok serp3 =>
                        rcases hp3 : pickDiscogsFromAny serp3 "hint" with ⟨hc, dadd3⟩
                        cases hc with
                        | some r =>
                          simp only [handler, googleSearch, hq, hk, hg1, hp1, hg2, hp2, hh, hjc,
                            htr, hpar, hg3, hp3, Bool.not_true, Bool.false_eq_true, ite_false,
                            ite_true] at h404 ⊢
                          exact ⟨"hint", _, Or.inr (Or.inr rfl), finishUp_404 _ _ _ _ _ _ _ h404⟩
                        | none =>
                          simp only [handler, googleSearch, hq, hk, hg1, hp1, hg2, hp2, hh, hjc,
                            htr, hpar, hg3, hp3, Bool.not_true, Bool.false_eq_true, ite_false,
                            ite_true] at h404 ⊢
                          exact ⟨"fallback", _, Or.inr (Or.inl rfl), finishUp_404 _ _ _ _ _ _ _ h404⟩
                · have htr' : jsTruthy ((jsGet h "title").getD Json.null) = false := by
                    rwa [Bool.not_eq_true] at htr
                  simp only [handler, googleSearch, hq, hk, hg1, hp1, hg2, hp2, hh, htr',
                    Bool.not_false, ite_false, ite_true] at h404 ⊢
                  exact ⟨"fallback", _, Or.inr (Or.inl rfl), finishUp_404 _ _ _ _ _ _ _ h404⟩

/-- C2 as amended: whenever all stages are exhausted without a
catalog-domain result, the terminal 404 no-match outcome carries the
`searchSource` last set by the pipeline and never `"none"`, with no
canonical URL field and the accumulated trace.  Stated as: (1) every 404
result of the handler, over all inputs and oracles, is the no-match
response for one of `"primary"`/`"fallback"`/`"hint"` (so never `"none"`),
with no `discogsUrl`/`canonicalUrl` in the body and the trace present;
(2) the ordinary exhaustion path with no hint candidate ends 404
`"fallback"`; (3) the exhaustion path where the hint search runs and finds
nothing ends 404 `"fallback"` after three search calls; (4)-(6) a link-less
candidate chosen at the primary, fallback or hint stage ends 404 with
`searchSource` `"primary"`, `"fallback"` or `"hint"` respectively. -/
theorem C2_amended_no_match_source :
    (∀ (event : Event) (env : Env) (goracle : String → GoogleOutcome)
        (doracle : String → DiscogsOutcome),
      (handler event env goracle doracle).1.statusCode = 404 →
      ∃ ss debug, (ss = "primary" ∨ ss = "fallback" ∨ ss = "hint") ∧ ss ≠ "none" ∧
        (handler event env goracle doracle).1 =
          noMatchResponse ((event.queryStringParameters.lookup "query").getD "") ss debug ∧
        jsGet (handler event env goracle doracle).1.body "searchSource" = some (Json.str ss) ∧
        jsGet (handler event env goracle doracle).1.body "discogsUrl" = none ∧
        jsGet (handler event env goracle doracle).1.body "canonicalUrl" = none ∧
        jsGet (handler event env goracle doracle).1.body "debug" = some (debugJson debug)) ∧
    (∀ (event : Event) (env : Env) (goracle : String → GoogleOutcome)
        (doracle : String → DiscogsOutcome) (q : String) (serp1 serp2 : Json)
        (d1 d2 : DebugInfo),
      (event.queryStringParameters.lookup "query").getD "" = q → q ≠ "" →
      env.SERPAPI_API_KEY.getD "" ≠ "" →
      goracle ("site:discogs.com " ++ q) = .ok serp1 →
      pickDiscogsFromAny serp1 "primary" = (none, d1) →
      goracle q = .ok serp2 →
      pickDiscogsFromAny serp2 "fallback" = (none, d2) →
      pickHintResult (organicOr serp2) = none →
      handler event env goracle doracle =
        (noMatchResponse q "fallback"
          ([("primaryQuery", some (Json.str ("site:discogs.com " ++ q))),
            ("primaryHasOrganic", hasOrganicDbg serp1)] ++ d1 ++
           ([("fallbackGoogleQuery", some (Json.str q)),
             ("fallbackHasOrganic", hasOrganicDbg serp2)] ++ d2 ++
            [("hintTitle", some Json.null),
             ("hintLink", some Json.null)])),
         [NetCall.google ("site:discogs.com " ++ q), NetCall.google q])) ∧
    (∀ (event : Event) (env : Env) (goracle : String → GoogleOutcome)
        (doracle : String → DiscogsOutcome) (q : String) (serp1 serp2 serp3 : Json)
        (d1 d2 d3 : DebugInfo) (h : Json) (ht : String) (p : ParsedHint),
      (event.queryStringParameters.lookup "query").getD "" = q → q ≠ "" →
      env.SERPAPI_API_KEY.getD "" ≠ "" →
      goracle ("site:discogs.com " ++ q) = .ok serp1 →
      pickDiscogsFromAny serp1 "primary" = (none, d1) →
      goracle q = .ok serp2 →
      pickDiscogsFromAny serp2 "fallback" = (none, d2) →
      pickHintResult (organicOr serp2) = some h →
      jsGet h "title" = some (Json.str ht) → ht ≠ "" →
      parseArtistAndTitleFromTitle ht = some p →
      goracle ("site:discogs.com \"" ++ p.artist ++ "\" \"" ++ p.title ++ "\"") = .ok serp3 →
      pickDiscogsFromAny serp3 "hint" = (none, d3) →
      (handler event env goracle doracle).1.statusCode = 404 ∧
      jsGet (handler event env goracle doracle).1.body "searchSource" =
        some (Json.str "fallback") ∧
      (handler event env goracle doracle).2 =
        [NetCall.google ("site:discogs.com " ++ q), NetCall.google q,
         NetCall.google ("site:discogs.com \"" ++ p.artist ++ "\" \"" ++ p.title ++ "\"")]) ∧
    (∀ (event : Event) (env : Env) (goracle : String → GoogleOutcome)
        (doracle : String → DiscogsOutcome) (q : String) (serp1 : Json)
        (d1 : DebugInfo) (r : Json),
      (event.queryStringParameters.lookup "query").getD "" = q → q ≠ "" →
      env.SERPAPI_API_KEY.getD "" ≠ "" →
      goracle ("site:discogs.com " ++ q) = .ok serp1 →
      pickDiscogsFromAny serp1 "primary" = (some r, d1) →
      jsGet r "link" = none →
      (handler event env goracle doracle).1.statusCode = 404 ∧
      jsGet (handler event env goracle doracle).1.body "searchSource" =
        some (Json.str "primary") ∧
      (handler event env goracle doracle).2 =
        [NetCall.google ("site:discogs.com " ++ q)]) ∧
    (∀ (event : Event) (env : Env) (goracle : String → GoogleOutcome)
        (doracle : String → DiscogsOutcome) (q : String) (serp1 serp2 : Json)
        (d1 d2 : DebugInfo) (r : Json),
      (event.queryStringParameters.lookup "query").getD "" = q → q ≠ "" →
      env.SERPAPI_API_KEY.getD "" ≠ "" →
      goracle ("site:discogs.com " ++ q) = .ok serp1 →
      pickDiscogsFromAny serp1 "primary" = (none, d1) →
      goracle q = .ok serp2 →
      pickDiscogsFromAny serp2 "fallback" = (some r, d2) →
      jsGet r "link" = none →
      (handler event env goracle doracle).1.statusCode = 404 ∧
      jsGet (handler event env goracle doracle).1.body "searchSource" =
        some (Json.str "fallback") ∧
      (handler event env goracle doracle).2 =
        [NetCall.google ("site:discogs.com " ++ q), NetCall.google q]) ∧
    (∀ (event : Event) (env : Env) (goracle : String → GoogleOutcome)
        (doracle : String → DiscogsOutcome) (q : String) (serp1 serp2 serp3 : Json)
        (d1 d2 d3 : DebugInfo) (h : Json) (ht : String) (p : ParsedHint) (r : Json),
      (event.queryStringParameters.lookup "query").getD "" = q → q ≠ "" →
      env.SERPAPI_API_KEY.getD "" ≠ "" →
      goracle ("site:discogs.com " ++ q) = .ok serp1 →
      pickDiscogsFromAny serp1 "primary" = (none, d1) →
      goracle q = .ok serp2 →
      pickDiscogsFromAny serp2 "fallback" = (none, d2) →
      pickHintResult (organicOr serp2) = some h →
      jsGet h "title" = some (Json.str ht) → ht ≠ "" →
      parseArtistAndTitleFromTitle ht = some p →
      goracle ("site:discogs.com \"" ++ p.artist ++ "\" \"" ++ p.title ++ "\"") = .ok serp3 →
      pickDiscogsFromAny serp3 "hint" = (some r, d3) →
      jsGet r "link" = none →
      (handler event env goracle doracle).1.statusCode = 404 ∧
      jsGet (handler event env goracle doracle).1.body "searchSource" =
        some (Json.str "hint") ∧
      (handler event env goracle doracle).2 =
        [NetCall.google ("site:discogs.com " ++ q), NetCall.google q,
         NetCall.google ("site:discogs.com \"" ++ p.artist ++ "\" \"" ++ p.title ++ "\"")]) := by
  refine ⟨?_, ?_, ?_, ?_, ?_, ?_⟩
  · intro event env goracle doracle h404
    obtain ⟨ss, debug, hmem, heq⟩ := handler_404_shape event env goracle doracle h404
    have hf := noMatchResponse_facts ((event.queryStringParameters.lookup "query").getD "")
      ss debug
    refine ⟨ss, debug, hmem, ?_, heq, ?_, ?_, ?_, ?_⟩
    · rcases hmem with rfl | rfl | rfl <;> decide
    · rw [heq]; exact hf.1
    · rw [heq]; exact hf.2.1
    · rw [heq]; exact hf.2.2.1
    · rw [heq]; exact hf.2.2.2
  · intro event env goracle doracle q serp1 serp2 d1 d2 hq hqne hkey h1 hp1 h2 hp2 hh
    simp [handler, hq, hqne, hkey, googleSearch, h1, hp1, h2, hp2, hh, finishUp]
  · intro event env goracle doracle q serp1 serp2 serp3 d1 d2 d3 h ht p
      hq hqne hkey h1 hp1 h2 hp2 hh hht htne hpar h3 hp3
    refine ⟨?_, ?_, ?_⟩ <;>
      (simp [handler, hq, hqne, hkey, googleSearch, h1, hp1, h2, hp2, hh, hht, htne, hpar,
         h3, hp3, jsTruthy, finishUp, noMatchResponse, jobj];
       try simp [jsGet, jsGet.jsGetFields, jfields])
  · intro event env goracle doracle q serp1 d1 r hq hqne hkey h1 hp1 hr
    refine ⟨?_, ?_, ?_⟩ <;>
      (simp [handler, hq, hqne, hkey, googleSearch, h1, hp1, hr, jsTruthy, finishUp,
         noMatchResponse, jobj];
       try simp [jsGet, jsGet.jsGetFields, jfields])
  · intro event env goracle doracle q serp1 serp2 d1 d2 r hq hqne hkey h1 hp1 h2 hp2 hr
    refine ⟨?_, ?_, ?_⟩ <;>
      (simp [handler, hq, hqne, hkey, googleSearch, h1, hp1, h2, hp2, hr, jsTruthy, finishUp,
         noMatchResponse, jobj];
       try simp [jsGet, jsGet.jsGetFields, jfields])
  · intro event env goracle doracle q serp1 serp2 serp3 d1 d2 d3 h ht p r
      hq hqne hkey h1 hp1 h2 hp2 hh hht htne hpar h3 hp3 hr
    refine ⟨?_, ?_, ?_⟩ <;>
      (simp [handler, hq, hqne, hkey, googleSearch, h1, hp1, h2, hp2, hh, hht, htne, hpar,
         h3, hp3, hr, jsTruthy, finishUp, noMatchResponse, jobj];
       try simp [jsGet, jsGet.jsGetFields, jfields])

/-- Witness for C2's amended theorem: concrete runs of the no-hint-candidate
path, of the hint-search-found-nothing path, and of a link-less candidate
chosen at the hint stage. -/
theorem C2_amended_no_match_source_witness :
    handler ⟨[("query", "kind of blue")]⟩ ⟨some "k", none⟩
      (fun _ => GoogleOutcome.ok (jobj [])) (fun _ => DiscogsOutcome.notOk) =
      (noMatchResponse "kind of blue" "fallback"
        [("primaryQuery", some (Json.str ("site:discogs.com " ++ "kind of blue"))),
         ("primaryHasOrganic", some (Json.bool false)),
         ("fallbackGoogleQuery", some (Json.str "kind of blue")),
         ("fallbackHasOrganic", some (Json.bool false)),
         ("hintTitle", some Json.null),
         ("hintLink", some Json.null)],
       [NetCall.google ("site:discogs.com " ++ "kind of blue"),
        NetCall.google "kind of blue"]) ∧
    ((handler ⟨[("query", "kind of blue")]⟩ ⟨some "k", none⟩
      (fun s => if s = "site:discogs.com \"Davis, Miles\" \"Kind of Blue\""
        then GoogleOutcome.ok (jobj [])
        else GoogleOutcome.ok
          (jobj [("organic_results",
                  jarr [jobj [("link", Json.str "https://www.ebay.com/itm/1"),
                              ("title", Json.str "Kind of Blue by Davis, Miles")]])]))
      (fun _ => DiscogsOutcome.notOk)).1.statusCode = 404 ∧
     jsGet (handler ⟨[("query", "kind of blue")]⟩ ⟨some "k", none⟩
      (fun s => if s = "site:discogs.com \"Davis, Miles\" \"Kind of Blue\""
        then GoogleOutcome.ok (jobj [])
        else GoogleOutcome.ok
          (jobj [("organic_results",
                  jarr [jobj [("link", Json.str "https://www.ebay.com/itm/1"),
                              ("title", Json.str "Kind of Blue by Davis, Miles")]])]))
      (fun _ => DiscogsOutcome.notOk)).1.body "searchSource" = some (Json.str "fallback") ∧
     (handler ⟨[("query", "kind of blue")]⟩ ⟨some "k", none⟩
      (fun s => if s = "site:discogs.com \"Davis, Miles\" \"Kind of Blue\""
        then GoogleOutcome.ok (jobj [])
        else GoogleOutcome.ok
          (jobj [("organic_results",
                  jarr [jobj [("link", Json.str "https://www.ebay.com/itm/1"),
                              ("title", Json.str "Kind of Blue by Davis, Miles")]])]))
      (fun _ => DiscogsOutcome.notOk)).2 =
       [NetCall.google "site:discogs.com kind of blue",
        NetCall.google "kind of blue",
        NetCall.google "site:discogs.com \"Davis, Miles\" \"Kind of Blue\""]) ∧
    ((handler ⟨[("query", "kind of blue")]⟩ ⟨some "k", none⟩
      (fun s => if s = "site:discogs.com \"Davis, Miles\" \"Kind of Blue\""
        then GoogleOutcome.ok
          (jobj [("organic_results",
                  jarr [jobj [("displayed_link", Json.str "www.discogs.com › r")]])])
        else GoogleOutcome.ok
          (jobj [("organic_results",
                  jarr [jobj [("link", Json.str "https://www.ebay.com/itm/1"),
                              ("title", Json.str "Kind of Blue by Davis, Miles")]])]))
      (fun _ => DiscogsOutcome.notOk)).1.statusCode = 404 ∧
     jsGet (handler ⟨[("query", "kind of blue")]⟩ ⟨some "k", none⟩
      (fun s => if s = "site:discogs.com \"Davis, Miles\" \"Kind of Blue\""
        then GoogleOutcome.ok
          (jobj [("organic_results",
                  jarr [jobj [("displayed_link", Json.str "www.discogs.com › r")]])])
        else GoogleOutcome.ok
          (jobj [("organic_results",
                  jarr [jobj [("link", Json.str "https://www.ebay.com/itm/1"),
                              ("title", Json.str "Kind of Blue by Davis, Miles")]])]))
      (fun _ => DiscogsOutcome.notOk)).1.body "searchSource" = some (Json.str "hint")) := by
  have H := C2_amended_no_match_source
  refine ⟨?_, ?_, ?_⟩
  · exact (H.2.1 ⟨[("query", "kind of blue")]⟩ ⟨some "k", none⟩
      (fun _ => GoogleOutcome.ok (jobj [])) (fun _ => DiscogsOutcome.notOk)
      "kind of blue" (jobj []) (jobj []) [] []
      rfl (by decide) (by decide) (by decide) (by decide) (by decide) (by decide)
      (by decide)).trans (by decide)
  · have h3 := H.2.2.1 ⟨[("query", "kind of blue")]⟩ ⟨some "k", none⟩
      (fun s => if s = "site:discogs.com \"Davis, Miles\" \"Kind of Blue\""
        then GoogleOutcome.ok (jobj [])
        else GoogleOutcome.ok
          (jobj [("organic_results",
                  jarr [jobj [("link", Json.str "https://www.ebay.com/itm/1"),
                              ("title", Json.str "Kind of Blue by Davis, Miles")]])]))
      (fun _ => DiscogsOutcome.notOk)
      "kind of blue"
      (jobj [("organic_results",
              jarr [jobj [("link", Json.str "https://www.ebay.com/itm/1"),
                          ("title", Json.str "Kind of Blue by Davis, Miles")]])])
      (jobj [("organic_results",
              jarr [jobj [("link", Json.str "https://www.ebay.com/itm/1"),
                          ("title", Json.str "Kind of Blue by Davis, Miles")]])])
      (jobj []) [] [] []
      (jobj [("link", Json.str "https://www.ebay.com/itm/1"),
             ("title", Json.str "Kind of Blue by Davis, Miles")])
      "Kind of Blue by Davis, Miles" ⟨"Davis, Miles", "Kind of Blue"⟩
      rfl (by decide) (by decide) (by decide) (by decide) (by decide) (by decide)
      (by decide) (by decide) (by decide) (by decide) (by decide) (by decide)
    exact ⟨h3.1, h3.2.1, h3.2.2.trans (by decide)⟩
  · have h6 := H.2.2.2.2.2 ⟨[("query", "kind of blue")]⟩ ⟨some "k", none⟩
      (fun s => if s = "site:discogs.com \"Davis, Miles\" \"Kind of Blue\""
        then GoogleOutcome.ok
          (jobj [("organic_results",
                  jarr [jobj [("displayed_link", Json.str "www.discogs.com › r")]])])
        else GoogleOutcome.ok
          (jobj [("organic_results",
                  jarr [jobj [("link", Json.str "https://www.ebay.com/itm/1"),
                              ("title", Json.str "Kind of Blue by Davis, Miles")]])]))
      (fun _ => DiscogsOutcome.notOk)
      "kind of blue"
      (jobj [("organic_results",
              jarr [jobj [("link", Json.str "https://www.ebay.com/itm/1"),
                          ("title", Json.str "Kind of Blue by Davis, Miles")]])])
      (jobj [("organic_results",
              jarr [jobj [("link", Json.str "https://www.ebay.com/itm/1"),
                          ("title", Json.str "Kind of Blue by Davis, Miles")]])])
      (jobj [("organic_results",
              jarr [jobj [("displayed_link", Json.str "www.discogs.com › r")]])])
      [] [] [("hintDiscogsSource", some (Json.str "organic_results"))]
      (jobj [("link", Json.str "https://www.ebay.com/itm/1"),
             ("title", Json.str "Kind of Blue by Davis, Miles")])
      "Kind of Blue by Davis, Miles" ⟨"Davis, Miles", "Kind of Blue"⟩
      (jobj [("displayed_link", Json.str "www.discogs.com › r")])
      rfl (by decide) (by decide) (by decide) (by decide) (by decide) (by decide)
      (by decide) (by decide) (by decide) (by decide) (by decide) (by decide) (by decide)
    exact ⟨h6.1, h6.2.1⟩

/-- C1 counterexample: primary and fallback searches succeed with no
Discogs result, a hint is extracted, and the hint-stage (stage 3) search
call fails with a non-success response: the handler aborts with the hard
500 "Internal error" response — it does not terminate as a 404 no-match
outcome.  (The call log shows all three stage calls were made.) -/
theorem C1_counterexample :
    (handler ⟨[("query", "kind of blue")]⟩ ⟨some "k", none⟩
      (fun s => if s = "site:discogs.com \"Davis, Miles\" \"Kind of Blue\""
        then GoogleOutcome.httpError 503 "busy"
        else GoogleOutcome.ok
          (jobj [("organic_results",
                  jarr [jobj [("link", Json.str "https://www.ebay.com/itm/1"),
                              ("title", Json.str "Kind of Blue by Davis, Miles")]])]))
      (fun _ => DiscogsOutcome.notOk)).1.statusCode = 500 ∧
    (handler ⟨[("query", "kind of blue")]⟩ ⟨some "k", none⟩
      (fun s => if s = "site:discogs.com \"Davis, Miles\" \"Kind of Blue\""
        then GoogleOutcome.httpError 503 "busy"
        else GoogleOutcome.ok
          (jobj [("organic_results",
                  jarr [jobj [("link", Json.str "https://www.ebay.com/itm/1"),
                              ("title", Json.str "Kind of Blue by Davis, Miles")]])]))
      (fun _ => DiscogsOutcome.notOk)).1 ≠
      noMatchResponse "kind of blue" "fallback"
        ((handler ⟨[("query", "kind of blue")]⟩ ⟨some "k", none⟩
          (fun s => if s = "site:discogs.com \"Davis, Miles\" \"Kind of Blue\""
            then GoogleOutcome.httpError 503 "busy"
            else GoogleOutcome.ok
              (jobj [("organic_results",
                      jarr [jobj [("link", Json.str "https://www.ebay.com/itm/1"),
                                  ("title", Json.str "Kind of Blue by Davis, Miles")]])]))
          (fun _ => DiscogsOutcome.notOk)).2.map (fun _ => ("", none))) ∧
    (handler ⟨[("query", "kind of blue")]⟩ ⟨some "k", none⟩
      (fun s => if s = "site:discogs.com \"Davis, Miles\" \"Kind of Blue\""
        then GoogleOutcome.httpError 503 "busy"
        else GoogleOutcome.ok
          (jobj [("organic_results",
                  jarr [jobj [("link", Json.str "https://www.ebay.com/itm/1"),
                              ("title", Json.str "Kind of Blue by Davis, Miles")]])]))
      (fun _ => DiscogsOutcome.notOk)).2 =
      [NetCall.google "site:discogs.com kind of blue",
       NetCall.google "kind of blue",
       NetCall.google "site:discogs.com \"Davis, Miles\" \"Kind of Blue\""] := by
  refine ⟨by decide, by decide, by decide⟩

/-- C1 as amended: a failed (non-success) hint-stage search call is fatal
exactly like a primary- or fallback-stage failure: the thrown
`SerpAPI error {status}: {snippet}` reaches the outermost catch and the
whole resolution aborts with the 500 "Internal error" response instead of
degrading to a "no hint result" no-match outcome. -/
theorem C1_amended_hint_failure_fatal (event : Event) (env : Env)
    (goracle : String → GoogleOutcome) (doracle : String → DiscogsOutcome)
    (q : String) (serp1 serp2 : Json) (d1 d2 : DebugInfo) (h : Json)
    (ht : String) (p : ParsedHint) (st : Nat) (b : String)
    (hq : (event.queryStringParameters.lookup "query").getD "" = q)
    (hqne : q ≠ "")
    (hkey : env.SERPAPI_API_KEY.getD "" ≠ "")
    (h1 : goracle ("site:discogs.com " ++ q) = .ok serp1)
    (hp1 : pickDiscogsFromAny serp1 "primary" = (none, d1))
    (h2 : goracle q = .ok serp2)
    (hp2 : pickDiscogsFromAny serp2 "fallback" = (none, d2))
    (hh : pickHintResult (organicOr serp2) = some h)
    (hht : jsGet h "title" = some (Json.str ht))
    (htne : ht ≠ "")
    (hpar : parseArtistAndTitleFromTitle ht = some p)
    (h3 : goracle ("site:discogs.com \"" ++ p.artist ++ "\" \"" ++ p.title ++ "\"") =
      .httpError st b) :
    handler event env goracle doracle =
      (internalError ("SerpAPI error " ++ toString st ++ ": " ++ b.take 500),
       [NetCall.google ("site:discogs.com " ++ q), NetCall.google q,
        NetCall.google ("site:discogs.com \"" ++ p.artist ++ "\" \"" ++ p.title ++ "\"")]) := by
  simp [handler, hq, hqne, hkey, googleSearch, h1, hp1, h2, hp2, hh, hht, htne,
    hpar, h3, jsTruthy]

/-- Witness for C1's amended theorem: the concrete run of the
counterexample, with every hypothesis discharged. -/
theorem C1_amended_hint_failure_fatal_witness :
    handler ⟨[("query", "kind of blue")]⟩ ⟨some "k", none⟩
      (fun s => if s = "site:discogs.com \"Davis, Miles\" \"Kind of Blue\""
        then GoogleOutcome.httpError 503 "busy"
        else GoogleOutcome.ok
          (jobj [("organic_results",
                  jarr [jobj [("link", Json.str "https://www.ebay.com/itm/1"),
                              ("title", Json.str "Kind of Blue by Davis, Miles")]])]))
      (fun _ => DiscogsOutcome.notOk) =
      (internalError ("SerpAPI error " ++ toString 503 ++ ": " ++ "busy".take 500),
       [NetCall.google ("site:discogs.com " ++ "kind of blue"),
        NetCall.google "kind of blue",
        NetCall.google ("site:discogs.com \"" ++ "Davis, Miles" ++ "\" \"" ++ "Kind of Blue" ++ "\"")]) :=
  C1_amended_hint_failure_fatal
    ⟨[("query", "kind of blue")]⟩ ⟨some "k", none⟩
    (fun s => if s = "site:discogs.com \"Davis, Miles\" \"Kind of Blue\""
      then GoogleOutcome.httpError 503 "busy"
      else GoogleOutcome.ok
        (jobj [("organic_results",
                jarr [jobj [("link", Json.str "https://www.ebay.com/itm/1"),
                            ("title", Json.str "Kind of Blue by Davis, Miles")]])]))
    (fun _ => DiscogsOutcome.notOk)
    "kind of blue"
    (jobj [("organic_results",
            jarr [jobj [("link", Json.str "https://www.ebay.com/itm/1"),
                        ("title", Json.str "Kind of Blue by Davis, Miles")]])])
    (jobj [("organic_results",
            jarr [jobj [("link", Json.str "https://www.ebay.com/itm/1"),
                        ("title", Json.str "Kind of Blue by Davis, Miles")]])])
    [] []
    (jobj [("link", Json.str "https://www.ebay.com/itm/1"),
           ("title", Json.str "Kind of Blue by Davis, Miles")])
    "Kind of Blue by Davis, Miles"
    ⟨"Davis, Miles", "Kind of Blue"⟩
    503 "busy"
    rfl (by decide) (by decide) (by decide) (by decide) (by decide) (by decide)
    (by decide) (by decide) (by decide) (by decide) (by decide)

/-- C3 counterexample: a transport error during the catalog metadata fetch
does abort the pipeline: the primary stage finds a Discogs release link,
the Discogs API fetch rejects, and the handler returns the 500 "Internal
error" response instead of producing the outcome from the search-stage
data. -/
theorem C3_counterexample :
    (handler ⟨[("query", "kind of blue")]⟩ ⟨some "k", none⟩
      (fun s => if s = "site:discogs.com kind of blue"
        then GoogleOutcome.ok
          (jobj [("organic_results",
                  jarr [jobj [("link", Json.str "https://www.discogs.com/release/123-x"),
                              ("title", Json.str "T")]])])
        else GoogleOutcome.ok (jobj []))
      (fun _ => DiscogsOutcome.transport "fetch failed")).1 =
      internalError "fetch failed" ∧
    ¬ (handler ⟨[("query", "kind of blue")]⟩ ⟨some "k", none⟩
      (fun s => if s = "site:discogs.com kind of blue"
        then GoogleOutcome.ok
          (jobj [("organic_results",
                  jarr [jobj [("link", Json.str "https://www.discogs.com/release/123-x"),
                              ("title", Json.str "T")]])])
        else GoogleOutcome.ok (jobj []))
      (fun _ => DiscogsOutcome.transport "fetch failed")).1.statusCode = 200 := by
  refine ⟨by decide, by decide⟩

/-- C3 as amended: a non-success response from the catalog metadata fetch
always degrades to "no entry" — the 200 outcome is still produced with the
search-stage title and cover untouched — but a transport error (a rejected
fetch) is not swallowed: it propagates to the boundary catch, which aborts
with the 500 "Internal error" response. -/
theorem C3_amended_enrichment_failure (doracle : String → DiscogsOutcome)
    (query primaryGoogleQuery searchSource url : String) (c : Json)
    (debug : DebugInfo) (callLog : List NetCall) (id : List Char)
    (hlink : jsGet c "link" = some (Json.str url))
    (hurl : url ≠ "")
    (hid : firstIdMatch "/release/".data url.data = some id) :
    (doracle ("/releases/" ++ (⟨id⟩ : String)) = DiscogsOutcome.notOk →
      finishUp doracle query primaryGoogleQuery searchSource (some c) debug callLog =
        (finishUp.okResponse query primaryGoogleQuery searchSource url
           (jsOrNull ((jsGet c "title").getD Json.null))
           (jsOrNull ((jsGet c "thumbnail").getD Json.null)) debug,
         callLog ++ [NetCall.discogsApi ("/releases/" ++ (⟨id⟩ : String))])) ∧
    (∀ m, doracle ("/releases/" ++ (⟨id⟩ : String)) = DiscogsOutcome.transport m →
      finishUp doracle query primaryGoogleQuery searchSource (some c) debug callLog =
        (internalError m,
         callLog ++ [NetCall.discogsApi ("/releases/" ++ (⟨id⟩ : String))])) := by
  constructor
  · intro hdo
    simp [finishUp, hlink, hurl, hid, fetchDiscogsApi, hdo, enrichMerge, jsTruthy]
  · intro m hdo
    simp [finishUp, hlink, hurl, hid, fetchDiscogsApi, hdo, jsTruthy]

/-- Witness for C3's amended theorem: a concrete chosen result and both
catalog outcomes, the swallowed non-success and the fatal transport
error. -/
theorem C3_amended_enrichment_failure_witness :
    (finishUp (fun _ => DiscogsOutcome.notOk) "q" "pq" "primary"
      (some (jobj [("link", Json.str "https://www.discogs.com/release/123-x"),
                   ("title", Json.str "T")])) [] [] =
      (finishUp.okResponse "q" "pq" "primary" "https://www.discogs.com/release/123-x"
         (jsOrNull ((jsGet (jobj [("link", Json.str "https://www.discogs.com/release/123-x"),
                                  ("title", Json.str "T")]) "title").getD Json.null))
         (jsOrNull ((jsGet (jobj [("link", Json.str "https://www.discogs.com/release/123-x"),
                                  ("title", Json.str "T")]) "thumbnail").getD Json.null)) [],
       [NetCall.discogsApi "/releases/123"])) ∧
    (finishUp (fun _ => DiscogsOutcome.transport "fetch failed") "q" "pq" "primary"
      (some (jobj [("link", Json.str "https://www.discogs.com/release/123-x"),
                   ("title", Json.str "T")])) [] [] =
      (internalError "fetch failed", [NetCall.discogsApi "/releases/123"])) := by
  have h1 := C3_amended_enrichment_failure (fun _ => DiscogsOutcome.notOk)
    "q" "pq" "primary" "https://www.discogs.com/release/123-x"
    (jobj [("link", Json.str "https://www.discogs.com/release/123-x"),
           ("title", Json.str "T")]) [] [] "123".data
    (by decide) (by decide) (by decide)
  have h2 := C3_amended_enrichment_failure (fun _ => DiscogsOutcome.transport "fetch failed")
    "q" "pq" "primary" "https://www.discogs.com/release/123-x"
    (jobj [("link", Json.str "https://www.discogs.com/release/123-x"),
           ("title", Json.str "T")]) [] [] "123".data
    (by decide) (by decide) (by decide)
  exact ⟨(h1.1 (by decide)).trans (by decide),
         (h2.2 "fetch failed" (by decide)).trans (by decide)⟩

/-! ### C9: idempotence of the hint extractor's cleaning steps -/

theorem dropWhile_head_false {p : Char → Bool} {l r : List Char} {c : Char}
    (h : l.dropWhile p = c :: r) : p c = false := by
  induction l with
  | nil => simp [List.dropWhile] at h
  | cons a tl ih =>
    rw [List.dropWhile_cons] at h
    by_cases hp : p a
    · rw [if_pos hp] at h; exact ih h
    · rw [if_neg hp] at h
      injection h with h1 _
      subst h1
      simpa using hp

theorem dropWhile_sfx (p : Char → Bool) (l : List Char) :
    ∃ a, l = a ++ l.dropWhile p ∧ a.all p = true := by
  refine ⟨l.takeWhile p, (List.takeWhile_append_dropWhile p l).symm, ?_⟩
  exact List.all_eq_true.mpr fun x hx => List.mem_takeWhile_imp hx

theorem matchParen_some_shape {cs rest : List Char} (h : matchParen cs = some rest) :
    ∃ a b, cs = a ++ '(' :: b ∧ ')' ∈ b ∧ ∃ b2, b = b2 ++ rest := by
  unfold matchParen at h
  split at h
  case _ c r1 heq =>
    split at h
    case isTrue hc =>
      subst hc
      split at h
      case _ d r2 heq2 =>
        split at h
        case isTrue hd =>
          subst hd
          injection h with h'
          obtain ⟨a1, ha1, _⟩ := dropWhile_sfx jsWs cs
          obtain ⟨a2, ha2, _⟩ := dropWhile_sfx (fun x => !(x == ')')) r1
          obtain ⟨a3, ha3, _⟩ := dropWhile_sfx jsWs r2
          refine ⟨a1, r1, by rw [ha1, heq], ?_, ?_⟩
          · rw [ha2, heq2]
            exact List.mem_append.mpr (Or.inr (List.mem_cons_self _ _))
          · refine ⟨a2 ++ ')' :: a3, ?_⟩
            rw [ha2, heq2, ha3, h']
            simp
        case isFalse => exact absurd h (by simp)
      case _ => exact absurd h (by simp)
    case isFalse => exact absurd h (by simp)
  case _ => exact absurd h (by simp)

theorem matchParen_some_sub {cs rest : List Char} (h : matchParen cs = some rest) :
    ∃ a, cs = a ++ rest ∧ a ≠ [] := by
  obtain ⟨a, b, hab, _, b2, hb2⟩ := matchParen_some_shape h
  exact ⟨a ++ '(' :: b2, by rw [hab, hb2]; simp, by simp⟩

theorem matchParen_some_length {cs rest : List Char} (h : matchParen cs = some rest) :
    rest.length < cs.length := by
  obtain ⟨a, hab, hne⟩ := matchParen_some_sub h
  have : 0 < a.length := List.length_pos.mpr hne
  rw [hab, List.length_append]
  omega

theorem matchParen_some_mem {cs rest : List Char} (h : matchParen cs = some rest) :
    ∀ x ∈ rest, x ∈ cs := by
  obtain ⟨a, hab, _⟩ := matchParen_some_sub h
  intro x hx
  rw [hab]
  exact List.mem_append.mpr (Or.inr hx)

theorem matchParen_none_lparen {tl : List Char} (h : matchParen ('(' :: tl) = none) :
    ')' ∉ tl := by
  intro hmem
  have hdw : List.dropWhile jsWs ('(' :: tl) = '(' :: tl := by
    rw [List.dropWhile_cons, if_neg (by decide)]
  unfold matchParen at h
  rw [hdw] at h
  simp only [if_pos rfl] at h
  cases hd2 : tl.dropWhile (fun x => !(x == ')')) with
  | nil =>
    have := List.dropWhile_eq_nil_iff.mp hd2 _ hmem
    simp at this
  | cons d r2 =>
    have hdf : (fun x => !(x == ')')) d = false := dropWhile_head_false hd2
    have hd' : d = ')' := by simpa using hdf
    subst hd'
    rw [hd2] at h
    simp at h

theorem stripParensGo_nil (f : Nat) : stripParensGo f [] = [] := by
  cases f <;> rfl

theorem stripParensGo_succ (f : Nat) (cs : List Char) :
    stripParensGo (f + 1) cs =
      match matchParen cs with
      | some rest => ' ' :: stripParensGo f rest
      | none =>
        match cs with
        | [] => []
        | c :: tl => c :: stripParensGo f tl := rfl

theorem stripParensGo_succ_some {f : Nat} {cs rest : List Char}
    (h : matchParen cs = some rest) :
    stripParensGo (f + 1) cs = ' ' :: stripParensGo f rest := by
  rw [stripParensGo_succ, h]

theorem stripParensGo_succ_none {f : Nat} {c : Char} {tl : List Char}
    (h : matchParen (c :: tl) = none) :
    stripParensGo (f + 1) (c :: tl) = c :: stripParensGo f tl := by
  rw [stripParensGo_succ, h]

theorem stripParensGo_congr :
    ∀ (f1 f2 : Nat) (cs : List Char), cs.length ≤ f1 → cs.length ≤ f2 →
      stripParensGo f1 cs = stripParensGo f2 cs := by
  intro f1
  induction f1 with
  | zero =>
    intro f2 cs h1 _
    have : cs = [] := List.length_eq_zero.mp (Nat.le_zero.mp h1)
    subst this
    rw [stripParensGo_nil, stripParensGo_nil]
  | succ n ih =>
    intro f2 cs h1 h2
    cases cs with
    | nil => rw [stripParensGo_nil, stripParensGo_nil]
    | cons c tl =>
      cases f2 with
      | zero => simp at h2
      | succ m =>
        cases hmp : matchParen (c :: tl) with
        | some rest =>
          have hlen := matchParen_some_length hmp
          rw [stripParensGo_succ_some hmp, stripParensGo_succ_some hmp]
          rw [ih m rest (by simp at hlen h1 ⊢; omega) (by simp at hlen h2 ⊢; omega)]
        | none =>
          rw [stripParensGo_succ_none hmp, stripParensGo_succ_none hmp]
          rw [ih m tl (by simp at h1 ⊢; omega) (by simp at h2 ⊢; omega)]

theorem stripParens_nil : stripParens [] = [] := rfl

theorem stripParens_some {cs rest : List Char} (h : matchParen cs = some rest) :
    stripParens cs = ' ' :: stripParens rest := by
  cases cs with
  | nil => simp [matchParen] at h
  | cons c tl =>
    have hlen := matchParen_some_length h
    show stripParensGo (c :: tl).length (c :: tl) = _
    have : (c :: tl).length = tl.length + 1 := rfl
    rw [this, stripParensGo_succ_some h,
      stripParensGo_congr tl.length rest.length rest (by simp at hlen ⊢; omega) le_rfl]
    rfl

theorem stripParens_cons_none {c : Char} {tl : List Char}
    (h : matchParen (c :: tl) = none) : stripParens (c :: tl) = c :: stripParens tl := by
  show stripParensGo (c :: tl).length (c :: tl) = _
  have : (c :: tl).length = tl.length + 1 := rfl
  rw [this, stripParensGo_succ_none h]
  rfl

theorem stripParens_mem :
    ∀ (n : Nat) (cs : List Char), cs.length ≤ n →
      ∀ x ∈ stripParens cs, x ∈ cs ∨ x = ' ' := by
  intro n
  induction n with
  | zero =>
    intro cs h
    have : cs = [] := List.length_eq_zero.mp (Nat.le_zero.mp h)
    subst this
    simp [stripParens_nil]
  | succ n ih =>
    intro cs hlen x hx
    cases hmp : matchParen cs with
    | some rest =>
      rw [stripParens_some hmp] at hx
      rcases List.mem_cons.mp hx with rfl | hx
      · right; rfl
      · have hl := matchParen_some_length hmp
        rcases ih rest (by omega) x hx with hm | he
        · exact Or.inl (matchParen_some_mem hmp x hm)
        · exact Or.inr he
    | none =>
      cases cs with
      | nil => rw [stripParens_nil] at hx; simp at hx
      | cons c tl =>
        rw [stripParens_cons_none hmp] at hx
        rcases List.mem_cons.mp hx with rfl | hx
        · exact Or.inl (List.mem_cons_self _ _)
        · rcases ih tl (by simp at hlen; omega) x hx with hm | he
          · exact Or.inl (List.mem_cons_of_mem _ hm)
          · exact Or.inr he

theorem ParenClean.nil : ParenClean [] := by
  intro a b hab
  simp at hab

theorem ParenClean.cons {c : Char} {cs : List Char} (h : ParenClean cs)
    (h2 : c = '(' → ')' ∉ cs) : ParenClean (c :: cs) := by
  intro a b hab
  cases a with
  | nil =>
    simp at hab
    obtain ⟨rfl, rfl⟩ := hab
    exact h2 rfl
  | cons a0 a' =>
    simp at hab
    exact h a' b hab.2

theorem ParenClean.tail {c : Char} {cs : List Char} (h : ParenClean (c :: cs)) :
    ParenClean cs := by
  intro a b hab
  exact h (c :: a) b (by rw [hab]; rfl)

theorem ParenClean.of_infix {pre mid post : List Char}
    (h : ParenClean (pre ++ mid ++ post)) : ParenClean mid := by
  intro a b hab
  intro hmem
  have : pre ++ mid ++ post = (pre ++ a) ++ '(' :: (b ++ post) := by
    rw [hab]; simp
  exact h (pre ++ a) (b ++ post) this (List.mem_append.mpr (Or.inl hmem))

theorem parenClean_stripParens :
    ∀ (n : Nat) (cs : List Char), cs.length ≤ n → ParenClean (stripParens cs) := by
  intro n
  induction n with
  | zero =>
    intro cs h
    have : cs = [] := List.length_eq_zero.mp (Nat.le_zero.mp h)
    subst this
    rw [stripParens_nil]
    exact ParenClean.nil
  | succ n ih =>
    intro cs hlen
    cases hmp : matchParen cs with
    | some rest =>
      rw [stripParens_some hmp]
      have hl := matchParen_some_length hmp
      exact (ih rest (by omega)).cons (by intro h; cases h)
    | none =>
      cases cs with
      | nil => rw [stripParens_nil]; exact ParenClean.nil
      | cons c tl =>
        rw [stripParens_cons_none hmp]
        refine (ih tl (by simp at hlen; omega)).cons ?_
        intro hc
        subst hc
        have hnot := matchParen_none_lparen hmp
        intro hmem
        rcases stripParens_mem tl.length tl le_rfl _ hmem with hm | he
        · exact hnot hm
        · cases he

theorem stripParens_of_parenClean : ∀ {cs : List Char}, ParenClean cs → stripParens cs = cs := by
  intro cs
  induction cs with
  | nil => intro _; rfl
  | cons c tl ih =>
    intro h
    have hmp : matchParen (c :: tl) = none := by
      cases hmp : matchParen (c :: tl) with
      | none => rfl
      | some rest =>
        obtain ⟨a, b, hab, hmem, _⟩ := matchParen_some_shape hmp
        exact absurd hmem (h a b hab)
    rw [stripParens_cons_none hmp, ih h.tail]

theorem jsWs_not_wordChar {c : Char} (h : jsWs c = true) : wordChar c = false := by
  by_contra hw
  rw [Bool.not_eq_false] at hw
  simp only [jsWs, Bool.or_eq_true, beq_iff_eq, Bool.and_eq_true, decide_eq_true_eq] at h
  simp only [wordChar, Bool.or_eq_true, beq_iff_eq, Bool.and_eq_true, decide_eq_true_eq] at hw
  omega

theorem jsWs_not_lparen {c : Char} (h : jsWs c = true) : c ≠ '(' := by
  intro hc
  subst hc
  simp [jsWs] at h

theorem noiseMatchAt_nil : noiseMatchAt [] = false := rfl

theorem noiseMatchAt_cons (c : Char) (tl : List Char) :
    noiseMatchAt (c :: tl) = (jsWs c && noiseToken ((c :: tl).dropWhile jsWs)) := rfl

theorem noiseToken_nil : noiseToken [] = false := by decide

theorem ciHead_append {pat l ext : List Char} (h : ciHead pat l = true) :
    ciHead pat (l ++ ext) = true := by
  induction pat generalizing l with
  | nil => rfl
  | cons p ps ih =>
    cases l with
    | nil => simp [ciHead] at h
    | cons c cs =>
      rw [List.cons_append]
      rw [ciHead] at h ⊢
      simp only [Bool.and_eq_true] at h ⊢
      exact ⟨h.1, ih h.2⟩

theorem ciHead_length_le {pat l : List Char} (h : ciHead pat l = true) :
    pat.length ≤ l.length := by
  induction pat generalizing l with
  | nil => simp
  | cons p ps ih =>
    cases l with
    | nil => simp [ciHead] at h
    | cons c cs =>
      rw [ciHead] at h
      simp only [Bool.and_eq_true] at h
      have := ih h.2
      simp
      omega

theorem noiseTail_nil : noiseTail [] = true := rfl

theorem noiseTail_cons (c : Char) (tl : List Char) :
    noiseTail (c :: tl) = (!wordChar c && (c :: tl).all (fun x => !lineTerm x)) := rfl

theorem noiseTail_append {u ext : List Char} (h : noiseTail u = true)
    (hhead : ∀ c, ext.head? = some c → jsWs c = true)
    (hterm : ext.all (fun c => !lineTerm c) = true) :
    noiseTail (u ++ ext) = true := by
  cases u with
  | nil =>
    cases ext with
    | nil => rfl
    | cons e etl =>
      have hwse := hhead e rfl
      rw [List.nil_append, noiseTail_cons, Bool.and_eq_true]
      constructor
      · simpa using jsWs_not_wordChar hwse
      · exact hterm
  | cons a utl =>
    rw [noiseTail_cons, Bool.and_eq_true] at h
    rw [List.cons_append, noiseTail_cons, Bool.and_eq_true]
    refine ⟨h.1, ?_⟩
    rw [← List.cons_append, List.all_append, Bool.and_eq_true]
    exact ⟨h.2, hterm⟩

theorem dropWhile_append_cons {p : Char → Bool} {l ext : List Char} {d : Char} {ds : List Char}
    (h : l.dropWhile p = d :: ds) : (l ++ ext).dropWhile p = d :: ds ++ ext := by
  induction l with
  | nil => simp [List.dropWhile] at h
  | cons a tl ih =>
    rw [List.dropWhile_cons] at h
    rw [List.cons_append, List.dropWhile_cons]
    by_cases hp : p a
    · rw [if_pos hp] at h ⊢
      exact ih h
    · rw [if_neg hp] at h ⊢
      rw [← h]
      simp

theorem noiseToken_append {t ext : List Char} (h : noiseToken t = true)
    (hhead : ∀ c, ext.head? = some c → jsWs c = true)
    (hterm : ext.all (fun c => !lineTerm c) = true) :
    noiseToken (t ++ ext) = true := by
  rw [noiseToken, List.any_eq_true] at h ⊢
  obtain ⟨tok, htok, hmatch⟩ := h
  rw [Bool.and_eq_true] at hmatch
  refine ⟨tok, htok, ?_⟩
  rw [Bool.and_eq_true]
  refine ⟨ciHead_append hmatch.1, ?_⟩
  have hle := ciHead_length_le hmatch.1
  rw [List.drop_append_of_le_length hle]
  exact noiseTail_append hmatch.2 hhead hterm

/-- The transfer lemma: a match of the suffix-noise regex at the head of a
truncated string is still a match after restoring a dropped extension that
is empty or starts with whitespace, provided the extension is
line-terminator free. -/
theorem noiseMatchAt_extend {xs ext : List Char} (hm : noiseMatchAt xs = true)
    (hhead : ∀ c, ext.head? = some c → jsWs c = true)
    (hterm : ext.all (fun c => !lineTerm c) = true) :
    noiseMatchAt (xs ++ ext) = true := by
  cases xs with
  | nil => rw [noiseMatchAt_nil] at hm; cases hm
  | cons x xs' =>
    rw [noiseMatchAt_cons, Bool.and_eq_true] at hm
    cases hdw : (x :: xs').dropWhile jsWs with
    | nil =>
      rw [hdw, noiseToken_nil] at hm
      cases hm.2
    | cons d ds =>
      rw [hdw] at hm
      rw [List.cons_append, noiseMatchAt_cons, Bool.and_eq_true]
      refine ⟨hm.1, ?_⟩
      rw [← List.cons_append, dropWhile_append_cons hdw]
      exact noiseToken_append hm.2 hhead hterm

theorem stripNoise_cons_pos {c : Char} {tl : List Char}
    (h : noiseMatchAt (c :: tl) = true) : stripNoise (c :: tl) = [] := by
  rw [stripNoise, if_pos h]

theorem stripNoise_cons_neg {c : Char} {tl : List Char}
    (h : noiseMatchAt (c :: tl) = false) : stripNoise (c :: tl) = c :: stripNoise tl := by
  rw [stripNoise, if_neg (by rw [h]; exact Bool.false_ne_true)]

theorem stripNoise_shape :
    ∀ cs : List Char, stripNoise cs = cs ∨
      ∃ c tl, cs = stripNoise cs ++ c :: tl ∧ jsWs c = true := by
  intro cs
  induction cs with
  | nil => exact Or.inl rfl
  | cons c tl ih =>
    cases h : noiseMatchAt (c :: tl) with
    | true =>
      refine Or.inr ⟨c, tl, ?_, ?_⟩
      · rw [stripNoise_cons_pos h]; rfl
      · rw [noiseMatchAt_cons, Bool.and_eq_true] at h
        exact h.1
    | false =>
      rw [stripNoise_cons_neg h]
      rcases ih with heq | ⟨c', tl', heq, hw⟩
      · exact Or.inl (by rw [heq])
      · refine Or.inr ⟨c', tl', ?_, hw⟩
        rw [List.cons_append, ← heq]

theorem stripNoise_of_noiseFree :
    ∀ {cs : List Char}, (∀ n, noiseMatchAt (cs.drop n) = false) → stripNoise cs = cs := by
  intro cs
  induction cs with
  | nil => intro _; rfl
  | cons c tl ih =>
    intro h
    rw [stripNoise_cons_neg (h 0), ih (fun n => h (n + 1))]

theorem stripNoise_noiseFree :
    ∀ cs : List Char, cs.all (fun c => !lineTerm c) = true →
      ∀ n, noiseMatchAt ((stripNoise cs).drop n) = false := by
  intro cs
  induction cs with
  | nil => intro _ n; rw [show stripNoise [] = [] from rfl, List.drop_nil, noiseMatchAt_nil]
  | cons c tl ih =>
    intro hterm n
    rw [List.all_cons, Bool.and_eq_true] at hterm
    cases h : noiseMatchAt (c :: tl) with
    | true => rw [stripNoise_cons_pos h, List.drop_nil, noiseMatchAt_nil]
    | false =>
      rw [stripNoise_cons_neg h]
      cases n with
      | succ n' => exact ih hterm.2 n'
      | zero =>
        rw [List.drop_zero]
        cases h' : noiseMatchAt (c :: stripNoise tl) with
        | false => rfl
        | true =>
          exfalso
          rcases stripNoise_shape tl with heq | ⟨c', tl', heq, hw⟩
          · rw [heq] at h'
            rw [h'] at h
            cases h
          · have hsplit : c :: tl = (c :: stripNoise tl) ++ (c' :: tl') := by
              rw [List.cons_append, ← heq]
            have hterm' : (c' :: tl').all (fun x => !lineTerm x) = true := by
              have : tl.all (fun x => !lineTerm x) = true := hterm.2
              rw [heq, List.all_append, Bool.and_eq_true] at this
              exact this.2
            have := noiseMatchAt_extend h'
              (fun cc hc => by
                simp only [List.head?_cons, Option.some.injEq] at hc
                exact hc ▸ hw)
              hterm'
            rw [← hsplit] at this
            rw [this] at h
            cases h

theorem dropWhile_dropWhile_self (p : Char → Bool) (l : List Char) :
    (l.dropWhile p).dropWhile p = l.dropWhile p := by
  cases hd : l.dropWhile p with
  | nil => rfl
  | cons c r =>
    rw [List.dropWhile_cons, if_neg]
    rw [dropWhile_head_false hd]
    exact Bool.false_ne_true

theorem jsTrim_decompR (cs : List Char) :
    ∃ sfx, cs.dropWhile jsWs = jsTrim cs ++ sfx ∧ sfx.all jsWs = true := by
  refine ⟨((cs.dropWhile jsWs).reverse.takeWhile jsWs).reverse, ?_, ?_⟩
  · have h := List.takeWhile_append_dropWhile jsWs (cs.dropWhile jsWs).reverse
    have h2 := congrArg List.reverse h
    rw [List.reverse_append, List.reverse_reverse] at h2
    rw [jsTrim]
    exact h2.symm
  · rw [List.all_reverse]
    exact List.all_eq_true.mpr fun x hx => List.mem_takeWhile_imp hx

theorem jsTrim_decomp (cs : List Char) :
    ∃ pre sfx, cs = pre ++ jsTrim cs ++ sfx ∧ pre.all jsWs = true ∧ sfx.all jsWs = true := by
  obtain ⟨sfx, hsfx, hall⟩ := jsTrim_decompR cs
  refine ⟨cs.takeWhile jsWs, sfx, ?_, ?_, hall⟩
  · conv_lhs => rw [← List.takeWhile_append_dropWhile jsWs cs]
    rw [hsfx, List.append_assoc]
  · exact List.all_eq_true.mpr fun x hx => List.mem_takeWhile_imp hx

theorem jsTrim_head_not_ws {cs : List Char} {c : Char} {r : List Char}
    (h : jsTrim cs = c :: r) : jsWs c = false := by
  obtain ⟨sfx, hsfx, _⟩ := jsTrim_decompR cs
  rw [h] at hsfx
  exact dropWhile_head_false (by rw [hsfx]; rfl)

theorem jsTrim_idem (cs : List Char) : jsTrim (jsTrim cs) = jsTrim cs := by
  have hA : (jsTrim cs).dropWhile jsWs = jsTrim cs := by
    cases ht : jsTrim cs with
    | nil => rfl
    | cons c r =>
      rw [List.dropWhile_cons, if_neg]
      rw [jsTrim_head_not_ws ht]
      exact Bool.false_ne_true
  have hB : (jsTrim cs).reverse.dropWhile jsWs = (jsTrim cs).reverse := by
    have hrev : (jsTrim cs).reverse = (cs.dropWhile jsWs).reverse.dropWhile jsWs := by
      rw [jsTrim, List.reverse_reverse]
    rw [hrev, dropWhile_dropWhile_self]
  show ((((jsTrim cs).dropWhile jsWs).reverse).dropWhile jsWs).reverse = jsTrim cs
  rw [hA, hB, List.reverse_reverse]

theorem dropWhile_eq_drop (p : Char → Bool) (l : List Char) :
    l.dropWhile p = l.drop (l.takeWhile p).length := by
  induction l with
  | nil => rfl
  | cons c tl ih =>
    rw [List.dropWhile_cons, List.takeWhile_cons]
    by_cases hp : p c
    · rw [if_pos hp, if_pos hp]
      simp only [List.length_cons, List.drop_succ_cons]
      exact ih
    · rw [if_neg hp, if_neg hp]
      rfl

theorem all_of_drop {p : Char → Bool} {l : List Char} (n : Nat)
    (h : l.all p = true) : (l.drop n).all p = true :=
  List.all_eq_true.mpr fun x hx => List.all_eq_true.mp h x (List.mem_of_mem_drop hx)

theorem noiseFree_trim {v : List Char} (hTF : v.all (fun c => !lineTerm c) = true)
    (hv : ∀ n, noiseMatchAt (v.drop n) = false) :
    ∀ n, noiseMatchAt ((jsTrim v).drop n) = false := by
  have ht1 : ∀ n, noiseMatchAt ((v.dropWhile jsWs).drop n) = false := by
    intro n
    rw [dropWhile_eq_drop, List.drop_drop]
    exact hv _
  obtain ⟨sfx, hsfx, hall⟩ := jsTrim_decompR v
  have hTFt1 : (v.dropWhile jsWs).all (fun c => !lineTerm c) = true := by
    rw [dropWhile_eq_drop]
    exact all_of_drop _ hTF
  have hTFsfx : sfx.all (fun c => !lineTerm c) = true := by
    rw [hsfx, List.all_append, Bool.and_eq_true] at hTFt1
    exact hTFt1.2
  intro n
  rcases le_or_lt (jsTrim v).length n with hle | hlt
  · rw [List.drop_eq_nil_of_le hle, noiseMatchAt_nil]
  · cases hm : noiseMatchAt ((jsTrim v).drop n) with
    | false => rfl
    | true =>
      exfalso
      have hext := noiseMatchAt_extend hm
        (fun c hc => by
          cases sfx with
          | nil => simp at hc
          | cons s stl =>
            simp only [List.head?_cons, Option.some.injEq] at hc
            rw [List.all_cons, Bool.and_eq_true] at hall
            exact hc ▸ hall.1)
        hTFsfx
      have hsplit : (v.dropWhile jsWs).drop n = (jsTrim v).drop n ++ sfx := by
        rw [hsfx, List.drop_append_of_le_length (Nat.le_of_lt hlt)]
      rw [← hsplit] at hext
      rw [ht1 n] at hext
      cases hext

theorem termFree_stripParens {cs : List Char}
    (h : cs.all (fun c => !lineTerm c) = true) :
    (stripParens cs).all (fun c => !lineTerm c) = true := by
  refine List.all_eq_true.mpr fun x hx => ?_
  rcases stripParens_mem cs.length cs le_rfl x hx with hm | he
  · exact List.all_eq_true.mp h x hm
  · subst he; decide

theorem termFree_stripNoise {cs : List Char}
    (h : cs.all (fun c => !lineTerm c) = true) :
    (stripNoise cs).all (fun c => !lineTerm c) = true := by
  rcases stripNoise_shape cs with heq | ⟨c, tl, heq, _⟩
  · rw [heq]; exact h
  · rw [heq, List.all_append, Bool.and_eq_true] at h
    exact h.1

theorem parenClean_stripNoise {cs : List Char} (h : ParenClean cs) :
    ParenClean (stripNoise cs) := by
  rcases stripNoise_shape cs with heq | ⟨c, tl, heq, _⟩
  · rw [heq]; exact h
  · refine @ParenClean.of_infix [] (stripNoise cs) (c :: tl) ?_
    rw [List.nil_append, ← heq]
    exact h

theorem parenClean_jsTrim {cs : List Char} (h : ParenClean cs) :
    ParenClean (jsTrim cs) := by
  obtain ⟨pre, sfx, hdec, _, _⟩ := jsTrim_decomp cs
  exact ParenClean.of_infix (by rw [← hdec]; exact h)

/-- Idempotence of the extractor's cleaning steps on inputs without line
terminators. -/
theorem cleanTitle_idem {s : List Char} (hTF : s.all (fun c => !lineTerm c) = true) :
    cleanTitle (cleanTitle s) = cleanTitle s := by
  have hTFu : (stripParens s).all (fun c => !lineTerm c) = true := termFree_stripParens hTF
  have hTFv : (stripNoise (stripParens s)).all (fun c => !lineTerm c) = true :=
    termFree_stripNoise hTFu
  have hPCu : ParenClean (stripParens s) := parenClean_stripParens s.length s le_rfl
  have hPCt : ParenClean (jsTrim (stripNoise (stripParens s))) :=
    parenClean_jsTrim (parenClean_stripNoise hPCu)
  have h1 : stripParens (jsTrim (stripNoise (stripParens s))) =
      jsTrim (stripNoise (stripParens s)) := stripParens_of_parenClean hPCt
  have hv : ∀ n, noiseMatchAt ((stripNoise (stripParens s)).drop n) = false :=
    stripNoise_noiseFree (stripParens s) hTFu
  have ht : ∀ n, noiseMatchAt ((jsTrim (stripNoise (stripParens s))).drop n) = false :=
    noiseFree_trim hTFv hv
  have h2 : stripNoise (jsTrim (stripNoise (stripParens s))) =
      jsTrim (stripNoise (stripParens s)) := stripNoise_of_noiseFree ht
  show jsTrim (stripNoise (stripParens (jsTrim (stripNoise (stripParens s))))) = _
  rw [h1, h2, jsTrim_idem]
  rfl

/-- C9 counterexample: with a line terminator in the input the cleaning is
not idempotent: `"A Vinyl B \n Record x"` cleans to `"A Vinyl B"` (the
newline blocks the `Vinyl` suffix match, the later `Record` match removes
the tail), and cleaning again yields `"A"`. -/
theorem C9_counterexample :
    cleanTitle (cleanTitle "A Vinyl B \n Record x".data) ≠
      cleanTitle "A Vinyl B \n Record x".data ∧
    cleanTitle "A Vinyl B \n Record x".data = "A Vinyl B".data ∧
    cleanTitle (cleanTitle "A Vinyl B \n Record x".data) = "A".data := by
  refine ⟨by decide, by decide, by decide⟩

/-- C9 as amended: on every input without line-terminator characters the
extractor's normalization is idempotent — applying the cleaning steps
(strip parentheticals, strip the trailing format-noise run, trim) twice
yields the same string as applying them once — and consequently re-running
the extractor on the already-cleaned string yields the same hint. -/
theorem C9_amended_clean_idempotent (s : String)
    (hTF : s.data.all (fun c => !lineTerm c) = true) :
    cleanTitle (cleanTitle s.data) = cleanTitle s.data ∧
    parseArtistAndTitleFromTitle ⟨cleanTitle s.data⟩ = parseArtistAndTitleFromTitle s := by
  refine ⟨cleanTitle_idem hTF, ?_⟩
  by_cases hs : s = ""
  · subst hs; rfl
  · have hcore : cleanTitle (cleanTitle s.data) = cleanTitle s.data := cleanTitle_idem hTF
    by_cases ht : cleanTitle s.data = []
    · have hemp : (⟨cleanTitle s.data⟩ : String) = "" := by rw [ht]
      simp only [parseArtistAndTitleFromTitle]
      rw [if_pos hemp, if_neg hs, ht]
      rfl
    · have hne : (⟨cleanTitle s.data⟩ : String) ≠ "" := by
        intro hcon
        exact ht (congrArg String.data hcon)
      have hdata : cleanTitle ((⟨cleanTitle s.data⟩ : String)).data = cleanTitle s.data :=
        hcore
      simp only [parseArtistAndTitleFromTitle]
      rw [if_neg hne, if_neg hs]
      simp only [hdata]

/-- Witness for C9's amended theorem: a terminator-free input on which the
cleaning removes a noise suffix once and then stays fixed. -/
theorem C9_amended_clean_idempotent_witness :
    cleanTitle (cleanTitle "Kind of Blue Vinyl 1959".data) =
      cleanTitle "Kind of Blue Vinyl 1959".data ∧
    parseArtistAndTitleFromTitle ⟨cleanTitle "Kind of Blue Vinyl 1959".data⟩ =
      parseArtistAndTitleFromTitle "Kind of Blue Vinyl 1959" :=
  C9_amended_clean_idempotent "Kind of Blue Vinyl 1959" (by decide)
